import Mathlib

/-!
Verification development for the chunked keychain storage subsystem of the
Nextcloud desktop client (src/libsync/creds/keychainchunk.cpp).

The WriteJob and ReadJob state machines of keychainchunk.cpp are embedded
shallowly: each QtKeychain completion handler becomes a pure step function on an
explicit job-state record, and the callback chain is driven by an explicit
fuel-bounded driver against a modelled backend.  Bytes are lists of naturals,
QString values are Lean String values, and the QtKeychain error enumeration is
reproduced as an inductive type.
-/

namespace KeychainChunkSpec

/-- Byte payloads (QByteArray contents) as lists of naturals. -/
abbrev ByteBuf := List Nat

/-- The QKeychain::Error enumeration, as used by keychainchunk.cpp. -/
inductive KError where
  | NoError
  | EntryNotFound
  | CouldNotDeleteEntry
  | AccessDeniedByUser
  | AccessDenied
  | NoBackendAvailable
  | NotImplemented
  | OtherError
deriving DecidableEq

/-- The two fields of an account object that the jobs consult (url and id),
per the external-interface section of the design: the account scope provider
exposes only these two strings. -/
structure Account where
  url : String
  id : String
deriving DecidableEq

/-- Compile-time platform selection in keychainchunk.cpp: Q_OS_WIN guards the
chunk splitting and the multi-chunk read loop, and Q_OS_UNIX together with not
Q_OS_MAC guards the backend-unavailable retry block. -/
inductive BuildOS where
  | windows
  | mac
  | unixOther
deriving DecidableEq

/-- True exactly when the Q_OS_WIN conditional code is compiled in. -/
def BuildOS.win : BuildOS → Bool
  | BuildOS.windows => true
  | _ => false

/-- True exactly when the Q_OS_UNIX and not Q_OS_MAC conditional code (the
one-shot retry block of ReadJob::slotReadJobDone) is compiled in. -/
def BuildOS.unixNotMac : BuildOS → Bool
  | BuildOS.unixOther => true
  | _ => false

/-- Character for one decimal digit, as QString::number renders it. -/
def digitChar (d : Nat) : Char := Char.ofNat (48 + d)

/-- Big-endian decimal digit list of a natural number; the fuel argument
bounds the recursion depth and any fuel at least n is enough. -/
def qstringNumberAux : Nat → Nat → List Char
  | 0, _ => []
  | fuel + 1, n => if n = 0 then [] else qstringNumberAux fuel (n / 10) ++ [digitChar (n % 10)]

/-- Decimal rendering of a natural number, as QString::number produces it for
the nonnegative chunk indices used in keychainchunk.cpp. -/
def qstringNumber (n : Nat) : String := if n = 0 then "0" else String.mk (qstringNumberAux n n)

/-- Numeric value of one decimal digit character. -/
def digitVal (c : Char) : Nat := c.toNat - 48

/-- Numeric value of a big-endian decimal digit list. -/
def digitsVal (l : List Char) : Nat := l.foldl (fun a c => a * 10 + digitVal c) 0

theorem digitVal_digitChar (d : Nat) (hd : d < 10) : digitVal (digitChar d) = d := by
  interval_cases d <;> decide

theorem string_data_mk (l : List Char) : (String.mk l).data = l := rfl

theorem digitsVal_append_one (l : List Char) (c : Char) :
    digitsVal (l ++ [c]) = digitsVal l * 10 + digitVal c := by
  unfold digitsVal
  rw [List.foldl_append]
  rfl

theorem digitsVal_qstringNumberAux :
    ∀ fuel n : Nat, n ≤ fuel → digitsVal (qstringNumberAux fuel n) = n := by
  intro fuel
  induction fuel with
  | zero =>
    intro n hn
    have h0 : n = 0 := Nat.le_zero.mp hn
    subst h0
    rfl
  | succ f ih =>
    intro n hn
    rw [qstringNumberAux]
    by_cases h0 : n = 0
    · subst h0; simp [digitsVal]
    · rw [if_neg h0, digitsVal_append_one]
      have hdiv : n / 10 < n := Nat.div_lt_self (Nat.pos_of_ne_zero h0) (by norm_num)
      rw [ih (n / 10) (by omega)]
      rw [digitVal_digitChar (n % 10) (Nat.mod_lt n (by norm_num))]
      have := Nat.div_add_mod n 10
      omega

theorem qstringNumber_injective : Function.Injective qstringNumber := by
  intro m n h
  by_cases hm : m = 0 <;> by_cases hn : n = 0
  · omega
  · exfalso
    have hd : (qstringNumber m).data = (qstringNumber n).data := congrArg String.data h
    rw [qstringNumber, qstringNumber, if_pos hm, if_neg hn, string_data_mk] at hd
    have hv : digitsVal ("0" : String).data = digitsVal (qstringNumberAux n n) := by rw [hd]
    rw [digitsVal_qstringNumberAux n n (Nat.le_refl n)] at hv
    have : digitsVal ("0" : String).data = 0 := by decide
    omega
  · exfalso
    have hd : (qstringNumber m).data = (qstringNumber n).data := congrArg String.data h
    rw [qstringNumber, qstringNumber, if_neg hm, if_pos hn, string_data_mk] at hd
    have hv : digitsVal (qstringNumberAux m m) = digitsVal ("0" : String).data := by rw [hd]
    rw [digitsVal_qstringNumberAux m m (Nat.le_refl m)] at hv
    have : digitsVal ("0" : String).data = 0 := by decide
    omega
  · have hd : (qstringNumber m).data = (qstringNumber n).data := congrArg String.data h
    rw [qstringNumber, qstringNumber, if_neg hm, if_neg hn, string_data_mk, string_data_mk] at hd
    have hv : digitsVal (qstringNumberAux m m) = digitsVal (qstringNumberAux n n) := by rw [hd]
    rw [digitsVal_qstringNumberAux m m (Nat.le_refl m),
        digitsVal_qstringNumberAux n n (Nat.le_refl n)] at hv
    exact hv

/-- Chunk-suffixed storage key, line 155 of keychainchunk.cpp: the key of the
first chunk is the plain logical key (compatible with non-chunked legacy
entries) and chunk i for positive i is stored under key dot i. -/
def chunkKey (key : String) (i : Nat) : String :=
  key ++ (if 0 < i then "." ++ qstringNumber i else "")

theorem chunkKey_zero (key : String) : chunkKey key 0 = key := by
  apply String.ext
  rw [chunkKey, if_neg (by omega)]
  rw [String.data_append]
  simp

theorem chunkKey_pos (key : String) (i : Nat) (hi : 0 < i) :
    chunkKey key i = key ++ "." ++ qstringNumber i := by
  rw [chunkKey, if_pos hi, String.append_assoc]

theorem chunkKey_injective (key : String) : Function.Injective (chunkKey key) := by
  intro i j h
  have hd : (chunkKey key i).data = (chunkKey key j).data := congrArg String.data h
  rw [chunkKey, chunkKey, String.data_append, String.data_append] at hd
  have htail := List.append_cancel_left hd
  by_cases hi : 0 < i <;> by_cases hj : 0 < j
  · rw [if_pos hi, if_pos hj, String.data_append, String.data_append] at htail
    have hq : (qstringNumber i).data = (qstringNumber j).data := List.append_cancel_left htail
    exact qstringNumber_injective (String.ext hq)
  · exfalso
    rw [if_pos hi, if_neg hj, String.data_append] at htail
    simp at htail
  · exfalso
    rw [if_neg hi, if_pos hj, String.data_append] at htail
    simp at htail
  · omega

/-- Modelled from the spec: AbstractCredentials::keychainKey is declared in
creds/abstractcredentials.h and its body is not part of src.  Per the key
deriver contract of the spec, an account scope is folded into the storage key
before chunk suffixing, and the account identifier component is appended only
when it is present (migration mode passes an empty identifier so that the
resulting key omits the identifier component). -/
def keychainKey (url key accountId : String) : String :=
  if accountId = "" then url ++ ":" ++ key
  else url ++ ":" ++ key ++ ":" ++ accountId

theorem keychainKey_middle_injective (url accountId : String) (k1 k2 : String)
    (h : keychainKey url k1 accountId = keychainKey url k2 accountId) : k1 = k2 := by
  by_cases hid : accountId = ""
  · rw [keychainKey, keychainKey, if_pos hid, if_pos hid] at h
    have hd := congrArg String.data h
    simp only [String.data_append, List.append_assoc] at hd
    exact String.ext (List.append_cancel_left (List.append_cancel_left hd))
  · rw [keychainKey, keychainKey, if_neg hid, if_neg hid] at h
    have hd := congrArg String.data h
    simp only [String.data_append, List.append_assoc] at hd
    have hmid := List.append_cancel_left (List.append_cancel_left hd)
    exact String.ext (List.append_cancel_right hmid)

/-- The storage key a job passes to QtKeychain for chunk index i: the
chunk-suffixed logical key, scope-qualified through keychainKey when an
account is present.  WriteJob (lines 155 to 160) always passes the account id;
ReadJob (lines 219 to 223 and 269 to 274) passes an empty id in
keychain-migration mode. -/
def derivedKey (account : Option Account) (migration : Bool) (key : String) (i : Nat) : String :=
  match account with
  | some a => keychainKey a.url (chunkKey key i) (if migration then "" else a.id)
  | none => chunkKey key i

theorem derivedKey_injective (account : Option Account) (migration : Bool) (key : String) :
    Function.Injective (derivedKey account migration key) := by
  intro i j h
  cases account with
  | none => exact chunkKey_injective key h
  | some a =>
    exact chunkKey_injective key (keychainKey_middle_injective _ _ _ _ h)

/-- State of a KeychainChunk::WriteJob: the fields of the Job base and WriteJob
classes that the .cpp logic touches (key, account, insecure-fallback flag,
pending chunk buffer, chunk count, recorded error and message, running flag). -/
structure WriteState where
  key : String
  account : Option Account
  insecureFallback : Bool
  chunkBuffer : ByteBuf
  chunkCount : Nat
  err : KError
  errorString : String
  isJobRunning : Bool
deriving DecidableEq

/-- Completion data of one finished QKeychain::WritePasswordJob as consumed by
WriteJob::slotWriteJobDone: its error, error string and key. -/
structure WriteDone where
  error : KError
  errorString : String
  key : String
deriving DecidableEq

/-- What one invocation of WriteJob::slotWriteJobDone does next: either issue
the next backend write (a new QKeychain::WritePasswordJob with the given key
and chunk payload, line 162 to 171) or finish (running flag cleared and the
finished signal emitted). -/
inductive WriteAction where
  | issue (kck : String) (chunk : ByteBuf)
  | done
deriving DecidableEq

/-- Result of one invocation of WriteJob::slotWriteJobDone: the action taken,
the updated job state, and whether a member function was called on the
incoming job pointer on the executed path (writeJob derefs: the error copies
under the null guard, writeJob key in the cutoff log at line 144, the
deleteLater calls at lines 146 and 179). -/
structure WriteStep where
  action : WriteAction
  st : WriteState
  derefIncoming : Bool
deriving DecidableEq

/-- Initial WriteJob state, constructor at lines 60 to 70: the payload becomes
the pending chunk buffer and the chunk count starts at zero.  The error field,
error string, insecure-fallback flag and running flag are the defaults of the
class declaration in keychainchunk.h (outside src); per the spec a fresh Job
is Idle with no error recorded. -/
def initWrite (account : Option Account) (key : String) (data : ByteBuf) : WriteState :=
  { key := key, account := account, insecureFallback := false,
    chunkBuffer := data, chunkCount := 0,
    err := KError.NoError, errorString := "", isJobRunning := false }

/-- Shallow embedding of WriteJob::slotWriteJobDone, lines 111 to 180.
The incoming pointer is none exactly on the initial invocation from
WriteJob::start (line 92 passes nullptr).  Note that the source tests the
buffer with if not empty, writing a chunk in the then branch and finishing in
the else branch; here the test is written with the branches swapped.  The
trailing writeJob deleteLater at line 179 is executed on every path that
reaches the end of the function, and the cutoff path at lines 143 to 152 calls
writeJob key and deleteLater before returning, so derefIncoming is true on
every path. -/
def slotWriteJobDone (os : BuildOS) (chunkSize maxChunks : Nat)
    (incoming : Option WriteDone) (st0 : WriteState) : WriteStep :=
  -- lines 116 to 124: copy the finished backend job error state, clearing the
  -- pending buffer on error; guarded by the null check on writeJob
  let st :=
    match incoming with
    | some j =>
      let s1 := { st0 with err := j.error, errorString := j.errorString }
      if j.error ≠ KError.NoError then { s1 with chunkBuffer := [] } else s1
    | none => st0
  if st.chunkBuffer = [] then
    -- lines 174 to 177: no pending data, clear the running flag and emit finished
    { action := WriteAction.done, st := { st with isJobRunning := false },
      derefIncoming := true }
  else
    -- lines 127 to 139: take the next chunk: the front ChunkSize bytes under
    -- Q_OS_WIN, the whole remaining buffer otherwise
    let chunk := if os.win then st.chunkBuffer.take chunkSize else st.chunkBuffer
    let rest := if os.win then st.chunkBuffer.drop chunkSize else []
    let index := st.chunkCount
    let st1 := { st with chunkBuffer := rest, chunkCount := st.chunkCount + 1 }
    if st1.chunkCount > maxChunks then
      -- lines 143 to 152: maximum chunk count exceeded: discard the rest and
      -- finish without reporting an error
      { action := WriteAction.done,
        st := { st1 with chunkBuffer := [], isJobRunning := false },
        derefIncoming := true }
    else
      -- lines 155 to 171: derive the storage key for this index and issue the
      -- next backend write
      { action := WriteAction.issue (derivedKey st1.account false st1.key index) chunk,
        st := st1, derefIncoming := true }

/-- Backend write behavior in which every backend write completes without
error. -/
def okBeh : Nat → KError × String := fun _ => (KError.NoError, "")

/-- Backend write behavior in which the backend write with operation index k
completes with the given error and message and every other write succeeds. -/
def failAt (k : Nat) (e : KError) (msg : String) : Nat → KError × String :=
  fun i => if i = k then (e, msg) else (KError.NoError, "")

/-- Fuel-bounded driver for the WriteJob completion chain: feeds each issued
backend write back into slotWriteJobDone with the outcome the behavior assigns
to its operation index, mirroring the signal connection at line 167.  Returns
the final job state, the list of issued backend writes (key and chunk, in
issue order) and the sublist of them that the backend stored (those completing
with NoError). -/
def runWriteFrom (os : BuildOS) (chunkSize maxChunks : Nat) (beh : Nat → KError × String) :
    Nat → Nat → Option WriteDone → WriteState →
    WriteState × List (String × ByteBuf) × List (String × ByteBuf)
  | 0, _, _, st => (st, [], [])
  | fuel + 1, opc, incoming, st =>
    let step := slotWriteJobDone os chunkSize maxChunks incoming st
    match step.action with
    | WriteAction.done => (step.st, [], [])
    | WriteAction.issue kck chunk =>
      let r := beh opc
      let rest := runWriteFrom os chunkSize maxChunks beh fuel (opc + 1)
        (some { error := r.1, errorString := r.2, key := kck }) step.st
      (rest.1, (kck, chunk) :: rest.2.1,
        if r.1 = KError.NoError then (kck, chunk) :: rest.2.2 else rest.2.2)

/-- Run a WriteJob to completion: WriteJob::start (lines 89 to 93) sets the
running flag and invokes the slot with a null pointer; the fuel bound of one
driver step per payload byte plus two is always sufficient. -/
def runWrite (os : BuildOS) (chunkSize maxChunks : Nat) (beh : Nat → KError × String)
    (st : WriteState) : WriteState × List (String × ByteBuf) × List (String × ByteBuf) :=
  runWriteFrom os chunkSize maxChunks beh (st.chunkBuffer.length + 2) 0 none
    { st with isJobRunning := true }

/-- WriteJob::startAwait outcome on the completed state (lines 95 to 109):
true exactly when the recorded error is NoError. -/
def writeStartAwaitOk (st : WriteState) : Bool :=
  if st.err = KError.NoError then true else false

/-- The list of backend entries that writing buf as successive chunks of
chunkSize bytes produces, starting at chunk index i, with m entries: entry t
carries the derived key for index i plus t and the t-th chunkSize-byte slice. -/
def chunkEntries (dk : Nat → String) (chunkSize : Nat) : Nat → Nat → ByteBuf →
    List (String × ByteBuf)
  | _, 0, _ => []
  | i, m + 1, buf =>
    (dk i, buf.take chunkSize) :: chunkEntries dk chunkSize (i + 1) m (buf.drop chunkSize)

/-- Number of backend entries a WriteJob creates for a payload of the given
length on the chunk-splitting platform: the chunk count of the payload, capped
at MaxChunks. -/
def numChunksWritten (chunkSize maxChunks len : Nat) : Nat :=
  min ((len + chunkSize - 1) / chunkSize) maxChunks

/-- State of a KeychainChunk::ReadJob: the fields of the Job base and ReadJob
classes that the .cpp logic touches.  The one-shot retry permission
retryOnKeyChainError starts as true (field default in keychainchunk.h, outside
src; the spec describes the one-shot retry permission as initially still
available). -/
structure ReadState where
  key : String
  account : Option Account
  keychainMigration : Bool
  insecureFallback : Bool
  retryOnKeyChainError : Bool
  chunkBuffer : ByteBuf
  chunkCount : Nat
  err : KError
  errorString : String
  isJobRunning : Bool
deriving DecidableEq

/-- Initial ReadJob state, constructor at lines 185 to 195. -/
def initRead (account : Option Account) (key : String) (keychainMigration : Bool) : ReadState :=
  { key := key, account := account, keychainMigration := keychainMigration,
    insecureFallback := false, retryOnKeyChainError := true,
    chunkBuffer := [], chunkCount := 0,
    err := KError.NoError, errorString := "", isJobRunning := false }

/-- Completion data of one finished QKeychain::ReadPasswordJob as consumed by
ReadJob::slotReadJobDone: its error, error string and binary data.  The
insecureFallback flag the slot reads back from the job is the one the job was
started with, so the embedding consults the insecureFallback field of the
ReadJob state instead. -/
structure ReadDone where
  error : KError
  errorString : String
  data : ByteBuf
deriving DecidableEq

/-- What one step of the ReadJob machine does next: issue a backend read for
the given storage key, schedule a one-shot retry of ReadJob::start after the
given delay in milliseconds (the QTimer::singleShot at line 300), or finish. -/
inductive ReadAction where
  | issue (kck : String)
  | retryLater (delayMs : Nat)
  | done
deriving DecidableEq

/-- Result of one step of the ReadJob machine. -/
structure ReadStep where
  action : ReadAction
  st : ReadState
deriving DecidableEq

/-- Storage key ReadJob::start derives for the first chunk, lines 219 to 223:
the plain logical key, scope-qualified when an account is present, with an
empty account id in keychain-migration mode. -/
def readStartKck (st : ReadState) : String :=
  match st.account with
  | some a => keychainKey a.url st.key (if st.keychainMigration then "" else a.id)
  | none => st.key

/-- Shallow embedding of ReadJob::start, lines 214 to 234: reset the chunk
count and buffer, derive the first-chunk key, mark the job running and issue
the backend read. -/
def readStart (st : ReadState) : ReadStep :=
  { action := ReadAction.issue (readStartKck st),
    st := { st with chunkCount := 0, chunkBuffer := [], isJobRunning := true } }

/-- Storage key the multi-chunk read loop derives for the next chunk, lines
269 to 274: the logical key, a dot and the current chunk count, grouped as the
source groups the QString concatenation. -/
def readNextKck (st : ReadState) : String :=
  let keyWithIndex := st.key ++ "." ++ qstringNumber st.chunkCount
  match st.account with
  | some a => keychainKey a.url keyWithIndex (if st.keychainMigration then "" else a.id)
  | none => keyWithIndex

/-- Shallow embedding of ReadJob::slotReadJobDone, lines 256 to 322.  On
success with nonempty data the chunk is appended and, under Q_OS_WIN only,
the next chunk is fetched while the chunk count stays below MaxChunks.  On
failure or empty data, the Q_OS_UNIX non-Mac retry block may consume the
one-shot retry permission for a NoBackendAvailable or OtherError completion
when insecure fallback is not engaged; otherwise the error is recorded unless
it is EntryNotFound arriving after at least one chunk was read. -/
def slotReadJobDone (os : BuildOS) (maxChunks : Nat)
    (incoming : Option ReadDone) (st0 : ReadState) : ReadStep :=
  match incoming with
  | none => { action := ReadAction.done, st := { st0 with isJobRunning := false } }
  | some r =>
    if r.error = KError.NoError ∧ 0 < r.data.length then
      -- lines 262 to 264: append the chunk data and count it
      let st1 := { st0 with chunkBuffer := st0.chunkBuffer ++ r.data,
                            chunkCount := st0.chunkCount + 1 }
      if os.win then
        if st1.chunkCount < maxChunks then
          -- lines 268 to 286: fetch the next chunk
          { action := ReadAction.issue (readNextKck st1), st := st1 }
        else
          -- lines 287 to 289: maximum chunk count reached, stop here
          { action := ReadAction.done, st := { st1 with isJobRunning := false } }
      else
        { action := ReadAction.done, st := { st1 with isJobRunning := false } }
    else
      if os.unixNotMac ∧ st0.insecureFallback = false ∧ st0.retryOnKeyChainError = true ∧
          (r.error = KError.NoBackendAvailable ∨ r.error = KError.OtherError) then
        -- lines 293 to 304: consume the one-shot permission and schedule a
        -- retry of ReadJob::start after ten seconds
        { action := ReadAction.retryLater 10000,
          st := { st0 with retryOnKeyChainError := false } }
      else
        -- line 305: the permission is cleared even when no retry is taken
        let st1 := if os.unixNotMac ∧ st0.insecureFallback = false
          then { st0 with retryOnKeyChainError := false } else st0
        -- lines 309 to 314: record the error unless it is EntryNotFound with
        -- at least one chunk already read
        let st2 := if r.error ≠ KError.EntryNotFound ∨
            (r.error = KError.EntryNotFound ∧ st1.chunkCount = 0)
          then { st1 with err := r.error, errorString := r.errorString } else st1
        { action := ReadAction.done, st := { st2 with isJobRunning := false } }

/-- ReadJob::startAwait outcome on the completed state (lines 244 to 253):
success exactly when the recorded error is NoError, and on failure the chunk
count and reassembly buffer are discarded before returning. -/
def readStartAwaitResult (st : ReadState) : Bool × ReadState :=
  if st.err = KError.NoError then (true, st)
  else (false, { st with chunkCount := 0, chunkBuffer := [] })

/-- First value stored under the given key, scanning the backend entry list in
order; none when the key is absent. -/
def lookupKey : List (String × ByteBuf) → String → Option ByteBuf
  | [], _ => none
  | e :: rest, k => if e.1 = k then some e.2 else lookupKey rest k

/-- Backend read completion against a stored entry list: a present key
completes with NoError and its bytes, a missing key completes with
EntryNotFound and empty data. -/
def backendRead (m : List (String × ByteBuf)) (k : String) : ReadDone :=
  match lookupKey m k with
  | some bs => { error := KError.NoError, errorString := "", data := bs }
  | none => { error := KError.EntryNotFound, errorString := "Entry not found", data := [] }

/-- Fuel-bounded driver for the ReadJob completion chain against a fixed
backend entry list: issued reads complete through backendRead, a scheduled
retry re-enters through readStart when its timer fires, and the final state is
returned once the machine finishes. -/
def runReadFromMap (os : BuildOS) (maxChunks : Nat) (m : List (String × ByteBuf)) :
    Nat → ReadStep → ReadState
  | 0, step => step.st
  | fuel + 1, step =>
    match step.action with
    | ReadAction.done => step.st
    | ReadAction.retryLater _ => runReadFromMap os maxChunks m fuel (readStart step.st)
    | ReadAction.issue kck =>
      runReadFromMap os maxChunks m fuel
        (slotReadJobDone os maxChunks (some (backendRead m kck)) step.st)

/-- Run a ReadJob to completion against a backend entry list, entering through
ReadJob::start; the fuel bound of MaxChunks plus two driver steps is always
sufficient for a map-backed run. -/
def runReadMap (os : BuildOS) (maxChunks : Nat) (m : List (String × ByteBuf))
    (st : ReadState) : ReadState :=
  runReadFromMap os maxChunks m (maxChunks + 2) (readStart st)

/-- Fuel-bounded driver for the ReadJob completion chain in which the i-th
issued backend read completes with the outcome the behavior assigns to i;
used for runs in which the backend fails transiently. -/
def runReadFromBeh (os : BuildOS) (maxChunks : Nat) (beh : Nat → ReadDone) :
    Nat → Nat → ReadStep → ReadState
  | 0, _, step => step.st
  | fuel + 1, opc, step =>
    match step.action with
    | ReadAction.done => step.st
    | ReadAction.retryLater _ => runReadFromBeh os maxChunks beh fuel opc (readStart step.st)
    | ReadAction.issue _ =>
      runReadFromBeh os maxChunks beh fuel (opc + 1)
        (slotReadJobDone os maxChunks (some (beh opc)) step.st)

/-- Run a ReadJob to completion against a read-outcome behavior, entering
through ReadJob::start. -/
def runReadBeh (os : BuildOS) (maxChunks : Nat) (beh : Nat → ReadDone)
    (st : ReadState) : ReadState :=
  runReadFromBeh os maxChunks beh (maxChunks + 4) 0 (readStart st)

theorem chunkEntries_length (dk : Nat → String) (cs : Nat) :
    ∀ (m i : Nat) (buf : ByteBuf), (chunkEntries dk cs i m buf).length = m := by
  intro m
  induction m with
  | zero => intro i buf; rfl
  | succ m ih =>
    intro i buf
    rw [chunkEntries, List.length_cons, ih]

theorem chunkEntries_map_fst (dk : Nat → String) (cs : Nat) :
    ∀ (m i : Nat) (buf : ByteBuf),
      (chunkEntries dk cs i m buf).map Prod.fst = (List.range m).map (fun t => dk (i + t)) := by
  intro m
  induction m with
  | zero => intro i buf; rfl
  | succ m ih =>
    intro i buf
    rw [chunkEntries, List.map_cons, ih (i + 1) (buf.drop cs), List.range_succ_eq_map,
      List.map_cons, List.map_map]
    congr 1
    congr 1
    funext t
    show dk (i + 1 + t) = dk (i + (t + 1))
    congr 1
    omega

theorem chunkEntries_join (dk : Nat → String) (cs : Nat) :
    ∀ (m i : Nat) (buf : ByteBuf),
      ((chunkEntries dk cs i m buf).map Prod.snd).flatten = buf.take (cs * m) := by
  intro m
  induction m with
  | zero => intro i buf; simp [chunkEntries]
  | succ m ih =>
    intro i buf
    rw [chunkEntries, List.map_cons, List.flatten_cons, ih (i + 1) (buf.drop cs)]
    rw [show cs * (m + 1) = cs + cs * m by ring, List.take_add]

theorem lookupKey_chunkEntries (dk : Nat → String) (hdk : Function.Injective dk) (cs : Nat) :
    ∀ (m i : Nat) (buf : ByteBuf) (j : Nat),
      lookupKey (chunkEntries dk cs i m buf) (dk j)
        = if i ≤ j ∧ j < i + m then some ((buf.drop (cs * (j - i))).take cs) else none := by
  intro m
  induction m with
  | zero =>
    intro i buf j
    rw [chunkEntries, lookupKey, if_neg (by omega)]
  | succ m ih =>
    intro i buf j
    rw [chunkEntries, lookupKey]
    by_cases hij : dk i = dk j
    · have hij2 : i = j := hdk hij
      subst hij2
      rw [if_pos hij, if_pos (by omega)]
      simp
    · have hne : i ≠ j := fun hc => hij (congrArg dk hc)
      rw [if_neg hij, ih (i + 1) (buf.drop cs) j]
      by_cases hin : i + 1 ≤ j ∧ j < i + 1 + m
      · rw [if_pos hin, if_pos (by omega), List.drop_drop]
        have h1 : j - i = (j - (i + 1)) + 1 := by omega
        rw [h1, Nat.mul_succ, Nat.add_comm (cs * (j - (i + 1))) cs]
      · rw [if_neg hin, if_neg (by omega)]

theorem numChunksWritten_zero_len (cs mc : Nat) (hcs : 0 < cs) :
    numChunksWritten cs mc 0 = 0 := by
  unfold numChunksWritten
  rw [show (0 + cs - 1) / cs = 0 from Nat.div_eq_of_lt (by omega)]
  omega

theorem numChunksWritten_succ (cs r len : Nat) (hcs : 0 < cs) (hlen : 0 < len) (hr : 0 < r) :
    numChunksWritten cs r len = numChunksWritten cs (r - 1) (len - cs) + 1 := by
  unfold numChunksWritten
  by_cases hle : len ≤ cs
  · rw [show len + cs - 1 = (len - 1) + cs by omega, Nat.add_div_right _ hcs,
      show (len - 1) / cs = 0 from Nat.div_eq_of_lt (by omega),
      show len - cs = 0 by omega,
      show (0 + cs - 1) / cs = 0 from Nat.div_eq_of_lt (by omega)]
    omega
  · rw [show len + cs - 1 = ((len - cs - 1) + cs) + cs by omega,
      Nat.add_div_right _ hcs, Nat.add_div_right _ hcs,
      show len - cs + cs - 1 = (len - cs - 1) + cs by omega,
      Nat.add_div_right _ hcs]
    generalize (len - cs - 1) / cs = q
    omega

theorem runWriteFrom_step_done (os : BuildOS) (cs mc : Nat) (beh : Nat → KError × String)
    (f opc : Nat) (inc : Option WriteDone) (st st1 : WriteState) (d : Bool)
    (h : slotWriteJobDone os cs mc inc st = ⟨WriteAction.done, st1, d⟩) :
    runWriteFrom os cs mc beh (f + 1) opc inc st = (st1, [], []) := by
  simp only [runWriteFrom, h]

theorem runWriteFrom_step_issue (os : BuildOS) (cs mc : Nat) (beh : Nat → KError × String)
    (f opc : Nat) (inc : Option WriteDone) (st st1 : WriteState) (d : Bool)
    (kck : String) (chunk : ByteBuf) (er : KError) (ms : String)
    (h : slotWriteJobDone os cs mc inc st = ⟨WriteAction.issue kck chunk, st1, d⟩)
    (hb : beh opc = (er, ms)) :
    runWriteFrom os cs mc beh (f + 1) opc inc st
      = ((runWriteFrom os cs mc beh f (opc + 1)
            (some { error := er, errorString := ms, key := kck }) st1).1,
         (kck, chunk) ::
           (runWriteFrom os cs mc beh f (opc + 1)
             (some { error := er, errorString := ms, key := kck }) st1).2.1,
         if er = KError.NoError then
           (kck, chunk) ::
             (runWriteFrom os cs mc beh f (opc + 1)
               (some { error := er, errorString := ms, key := kck }) st1).2.2
         else
           (runWriteFrom os cs mc beh f (opc + 1)
             (some { error := er, errorString := ms, key := kck }) st1).2.2) := by
  simp only [runWriteFrom, h, hb]

/-- Outcome of a completed all-successful WriteJob driver run: no error
recorded, empty error message, running flag cleared, pending buffer drained,
and both the issued and the stored backend writes equal to the given entry
list. -/
def WriteOkOutcome (res : WriteState × List (String × ByteBuf) × List (String × ByteBuf))
    (entries : List (String × ByteBuf)) : Prop :=
  res.1.err = KError.NoError ∧ res.1.errorString = "" ∧ res.1.isJobRunning = false ∧
  res.1.chunkBuffer = [] ∧ res.2.1 = entries ∧ res.2.2 = entries

theorem slotWriteJobDone_ok_incoming (os : BuildOS) (cs mc : Nat) (j : WriteDone)
    (st : WriteState) (hj : j.error = KError.NoError) :
    slotWriteJobDone os cs mc (some j) st
      = slotWriteJobDone os cs mc none
          { st with err := j.error, errorString := j.errorString } := by
  rw [slotWriteJobDone, slotWriteJobDone]
  simp [hj]

theorem runWriteFrom_ok_win (cs mc : Nat) (hcs : 0 < cs) (key : String)
    (acct : Option Account) (fb : Bool) :
    ∀ (fuel : Nat) (buf : ByteBuf) (i opc : Nat) (inc : Option WriteDone),
      buf.length + 2 ≤ fuel → i ≤ mc →
      (∀ j, inc = some j → j.error = KError.NoError ∧ j.errorString = "") →
      WriteOkOutcome
        (runWriteFrom BuildOS.windows cs mc okBeh fuel opc inc
          { key := key, account := acct, insecureFallback := fb, chunkBuffer := buf,
            chunkCount := i, err := KError.NoError, errorString := "",
            isJobRunning := true })
        (chunkEntries (derivedKey acct false key) cs i
          (numChunksWritten cs (mc - i) buf.length) buf) := by
  intro fuel
  induction fuel with
  | zero => intro buf i opc inc hf hi hinc; omega
  | succ f ih =>
    intro buf i opc inc hf hi hinc
    have hslot : slotWriteJobDone BuildOS.windows cs mc inc
        { key := key, account := acct, insecureFallback := fb, chunkBuffer := buf,
          chunkCount := i, err := KError.NoError, errorString := "", isJobRunning := true }
        = slotWriteJobDone BuildOS.windows cs mc none
          { key := key, account := acct, insecureFallback := fb, chunkBuffer := buf,
            chunkCount := i, err := KError.NoError, errorString := "",
            isJobRunning := true } := by
      cases inc with
      | none => rfl
      | some j =>
        obtain ⟨hj1, hj2⟩ := hinc j rfl
        rw [slotWriteJobDone_ok_incoming _ _ _ _ _ hj1, hj1, hj2]
    by_cases hbuf : buf = []
    · subst hbuf
      have hdone : slotWriteJobDone BuildOS.windows cs mc inc
          { key := key, account := acct, insecureFallback := fb, chunkBuffer := [],
            chunkCount := i, err := KError.NoError, errorString := "",
            isJobRunning := true }
          = ⟨WriteAction.done,
             { key := key, account := acct, insecureFallback := fb, chunkBuffer := [],
               chunkCount := i, err := KError.NoError, errorString := "",
               isJobRunning := false }, true⟩ := by
        rw [hslot]
        simp [slotWriteJobDone]
      rw [runWriteFrom_step_done _ _ _ _ _ _ _ _ _ _ hdone]
      rw [show (List.length ([] : ByteBuf)) = 0 from rfl,
        numChunksWritten_zero_len cs (mc - i) hcs]
      exact ⟨rfl, rfl, rfl, rfl, rfl, rfl⟩
    · have hlen : 0 < buf.length := List.length_pos.mpr hbuf
      by_cases hcut : i + 1 > mc
      · have hieq : i = mc := by omega
        have hdone : slotWriteJobDone BuildOS.windows cs mc inc
            { key := key, account := acct, insecureFallback := fb, chunkBuffer := buf,
              chunkCount := i, err := KError.NoError, errorString := "",
              isJobRunning := true }
            = ⟨WriteAction.done,
               { key := key, account := acct, insecureFallback := fb, chunkBuffer := [],
                 chunkCount := i + 1, err := KError.NoError, errorString := "",
                 isJobRunning := false }, true⟩ := by
          rw [hslot, slotWriteJobDone]
          simp [hbuf, hcut]
        rw [runWriteFrom_step_done _ _ _ _ _ _ _ _ _ _ hdone]
        rw [show mc - i = 0 by omega]
        rw [show numChunksWritten cs 0 buf.length = 0 by
          unfold numChunksWritten; exact Nat.min_zero _]
        exact ⟨rfl, rfl, rfl, rfl, rfl, rfl⟩
      · have hissue : slotWriteJobDone BuildOS.windows cs mc inc
            { key := key, account := acct, insecureFallback := fb, chunkBuffer := buf,
              chunkCount := i, err := KError.NoError, errorString := "",
              isJobRunning := true }
            = ⟨WriteAction.issue (derivedKey acct false key i) (buf.take cs),
               { key := key, account := acct, insecureFallback := fb,
                 chunkBuffer := buf.drop cs, chunkCount := i + 1, err := KError.NoError,
                 errorString := "", isJobRunning := true }, true⟩ := by
          rw [hslot, slotWriteJobDone]
          simp [hbuf, hcut, BuildOS.win]
        rw [runWriteFrom_step_issue _ _ _ _ _ _ _ _ _ _ _ _ _ _ hissue rfl]
        have hdrop : (buf.drop cs).length + 2 ≤ f := by
          rw [List.length_drop]
          omega
        have hrec := ih (buf.drop cs) (i + 1) (opc + 1)
          (some { error := KError.NoError, errorString := "",
                  key := derivedKey acct false key i })
          hdrop (by omega) (by intro j hj; cases hj; exact ⟨rfl, rfl⟩)
        obtain ⟨he, hes, hrun, hcb, hiss, hsto⟩ := hrec
        have hcount : numChunksWritten cs (mc - i) buf.length
            = numChunksWritten cs (mc - i - 1) (buf.length - cs) + 1 :=
          numChunksWritten_succ cs (mc - i) buf.length hcs hlen (by omega)
        rw [hcount, chunkEntries]
        rw [if_pos rfl]
        refine ⟨he, hes, hrun, hcb, ?_, ?_⟩
        · rw [hiss, List.length_drop]
          rw [show mc - (i + 1) = mc - i - 1 by omega]
        · rw [hsto, List.length_drop]
          rw [show mc - (i + 1) = mc - i - 1 by omega]

theorem runWrite_ok_win (cs mc : Nat) (hcs : 0 < cs) (key : String)
    (acct : Option Account) (S : ByteBuf) :
    WriteOkOutcome (runWrite BuildOS.windows cs mc okBeh (initWrite acct key S))
      (chunkEntries (derivedKey acct false key) cs 0 (numChunksWritten cs mc S.length) S) := by
  have h := runWriteFrom_ok_win cs mc hcs key acct false
    ((initWrite acct key S).chunkBuffer.length + 2) S 0 0 none
    (by show S.length + 2 ≤ S.length + 2; omega) (by omega) (by intro j hj; cases hj)
  rw [Nat.sub_zero] at h
  exact h

theorem slotWriteJobDone_error (os : BuildOS) (cs mc : Nat) (j : WriteDone)
    (st : WriteState) (hj : j.error ≠ KError.NoError) :
    slotWriteJobDone os cs mc (some j) st
      = ⟨WriteAction.done,
         { st with
           err := j.error, errorString := j.errorString, chunkBuffer := [],
           isJobRunning := false }, true⟩ := by
  rw [slotWriteJobDone]
  simp [hj]

theorem runWriteFrom_fail_win (cs mc : Nat) (hcs : 0 < cs) (key : String)
    (acct : Option Account) (fb : Bool) (e : KError) (msg : String)
    (he : e ≠ KError.NoError) (k : Nat) :
    ∀ (fuel : Nat) (buf : ByteBuf) (i : Nat) (inc : Option WriteDone),
      (k - i) + 2 ≤ fuel → k < mc → i ≤ k → cs * (k - i) < buf.length →
      (∀ j, inc = some j → j.error = KError.NoError ∧ j.errorString = "") →
      (runWriteFrom BuildOS.windows cs mc (failAt k e msg) fuel i inc
        { key := key, account := acct, insecureFallback := fb, chunkBuffer := buf,
          chunkCount := i, err := KError.NoError, errorString := "",
          isJobRunning := true }).1.err = e ∧
      (runWriteFrom BuildOS.windows cs mc (failAt k e msg) fuel i inc
        { key := key, account := acct, insecureFallback := fb, chunkBuffer := buf,
          chunkCount := i, err := KError.NoError, errorString := "",
          isJobRunning := true }).1.errorString = msg ∧
      (runWriteFrom BuildOS.windows cs mc (failAt k e msg) fuel i inc
        { key := key, account := acct, insecureFallback := fb, chunkBuffer := buf,
          chunkCount := i, err := KError.NoError, errorString := "",
          isJobRunning := true }).1.isJobRunning = false ∧
      (runWriteFrom BuildOS.windows cs mc (failAt k e msg) fuel i inc
        { key := key, account := acct, insecureFallback := fb, chunkBuffer := buf,
          chunkCount := i, err := KError.NoError, errorString := "",
          isJobRunning := true }).1.chunkBuffer = [] ∧
      (runWriteFrom BuildOS.windows cs mc (failAt k e msg) fuel i inc
        { key := key, account := acct, insecureFallback := fb, chunkBuffer := buf,
          chunkCount := i, err := KError.NoError, errorString := "",
          isJobRunning := true }).2.1
        = chunkEntries (derivedKey acct false key) cs i (k - i + 1) buf ∧
      (runWriteFrom BuildOS.windows cs mc (failAt k e msg) fuel i inc
        { key := key, account := acct, insecureFallback := fb, chunkBuffer := buf,
          chunkCount := i, err := KError.NoError, errorString := "",
          isJobRunning := true }).2.2
        = chunkEntries (derivedKey acct false key) cs i (k - i) buf := by
  intro fuel
  induction fuel with
  | zero => intro buf i inc hf hk hik hbuflen hinc; omega
  | succ f ih =>
    intro buf i inc hf hk hik hbuflen hinc
    have hbuf : buf ≠ [] := by
      intro hc
      subst hc
      simp at hbuflen
    have hslot : slotWriteJobDone BuildOS.windows cs mc inc
        { key := key, account := acct, insecureFallback := fb, chunkBuffer := buf,
          chunkCount := i, err := KError.NoError, errorString := "", isJobRunning := true }
        = slotWriteJobDone BuildOS.windows cs mc none
          { key := key, account := acct, insecureFallback := fb, chunkBuffer := buf,
            chunkCount := i, err := KError.NoError, errorString := "",
            isJobRunning := true } := by
      cases inc with
      | none => rfl
      | some j =>
        obtain ⟨hj1, hj2⟩ := hinc j rfl
        rw [slotWriteJobDone_ok_incoming _ _ _ _ _ hj1, hj1, hj2]
    have hissue : slotWriteJobDone BuildOS.windows cs mc inc
        { key := key, account := acct, insecureFallback := fb, chunkBuffer := buf,
          chunkCount := i, err := KError.NoError, errorString := "", isJobRunning := true }
        = ⟨WriteAction.issue (derivedKey acct false key i) (buf.take cs),
           { key := key, account := acct, insecureFallback := fb,
             chunkBuffer := buf.drop cs, chunkCount := i + 1, err := KError.NoError,
             errorString := "", isJobRunning := true }, true⟩ := by
      rw [hslot, slotWriteJobDone]
      simp [hbuf, BuildOS.win]
      omega
    by_cases hik2 : i = k
    · subst hik2
      have hb : failAt i e msg i = (e, msg) := by
        unfold failAt
        rw [if_pos rfl]
      rw [runWriteFrom_step_issue _ _ _ _ _ _ _ _ _ _ _ _ _ _ hissue hb]
      cases f with
      | zero => omega
      | succ f2 =>
        have hdone := slotWriteJobDone_error BuildOS.windows cs mc
          { error := e, errorString := msg, key := derivedKey acct false key i }
          { key := key, account := acct, insecureFallback := fb,
            chunkBuffer := buf.drop cs, chunkCount := i + 1, err := KError.NoError,
            errorString := "", isJobRunning := true } he
        rw [runWriteFrom_step_done _ _ _ _ _ _ _ _ _ _ hdone]
        rw [if_neg he]
        rw [show i - i = 0 by omega]
        exact ⟨rfl, rfl, rfl, rfl, rfl, rfl⟩
    · have hb : failAt k e msg i = (KError.NoError, "") := by
        unfold failAt
        rw [if_neg hik2]
      rw [runWriteFrom_step_issue _ _ _ _ _ _ _ _ _ _ _ _ _ _ hissue hb]
      have hmul : cs * (k - (i + 1)) + cs = cs * (k - i) := by
        rw [show k - i = (k - (i + 1)) + 1 by omega, Nat.mul_succ]
      have hrec := ih (buf.drop cs) (i + 1)
        (some { error := KError.NoError, errorString := "",
                key := derivedKey acct false key i })
        (by omega) hk (by omega)
        (by rw [List.length_drop]; omega)
        (by intro j hj; cases hj; exact ⟨rfl, rfl⟩)
      obtain ⟨he1, he2, he3, he4, he5, he6⟩ := hrec
      rw [if_pos rfl]
      refine ⟨he1, he2, he3, he4, ?_, ?_⟩
      · rw [he5]
        rw [show k - i + 1 = (k - (i + 1) + 1) + 1 by omega]
        conv_rhs => rw [chunkEntries]
      · rw [he6]
        rw [show k - i = (k - (i + 1)) + 1 by omega]
        conv_rhs => rw [chunkEntries]

theorem runWrite_fail_win (cs mc : Nat) (hcs : 0 < cs) (key : String)
    (acct : Option Account) (S : ByteBuf) (e : KError) (msg : String)
    (he : e ≠ KError.NoError) (k : Nat) (hk : k < mc) (hklen : cs * k < S.length) :
    (runWrite BuildOS.windows cs mc (failAt k e msg) (initWrite acct key S)).1.err = e ∧
    (runWrite BuildOS.windows cs mc (failAt k e msg) (initWrite acct key S)).1.errorString
      = msg ∧
    (runWrite BuildOS.windows cs mc (failAt k e msg)
      (initWrite acct key S)).1.isJobRunning = false ∧
    (runWrite BuildOS.windows cs mc (failAt k e msg)
      (initWrite acct key S)).1.chunkBuffer = [] ∧
    (runWrite BuildOS.windows cs mc (failAt k e msg) (initWrite acct key S)).2.1
      = chunkEntries (derivedKey acct false key) cs 0 (k + 1) S ∧
    (runWrite BuildOS.windows cs mc (failAt k e msg) (initWrite acct key S)).2.2
      = chunkEntries (derivedKey acct false key) cs 0 k S := by
  have h := runWriteFrom_fail_win cs mc hcs key acct false e msg he k
    ((initWrite acct key S).chunkBuffer.length + 2) S 0 none
    (by
      show k - 0 + 2 ≤ S.length + 2
      have hkk : k ≤ cs * k := by
        calc k = 1 * k := by omega
        _ ≤ cs * k := Nat.mul_le_mul_right k hcs
      omega)
    hk (by omega) (by rw [Nat.sub_zero]; exact hklen) (by intro j hj; cases hj)
  rw [Nat.sub_zero] at h
  exact h

theorem runWrite_ok_nocap (os : BuildOS) (hos : os.win = false) (cs mc : Nat)
    (hmc : 0 < mc) (key : String) (acct : Option Account) (S : ByteBuf) (hS : S ≠ []) :
    WriteOkOutcome (runWrite os cs mc okBeh (initWrite acct key S))
      [(derivedKey acct false key 0, S)] := by
  have hissue : slotWriteJobDone os cs mc none
      { key := key, account := acct, insecureFallback := false, chunkBuffer := S,
        chunkCount := 0, err := KError.NoError, errorString := "", isJobRunning := true }
      = ⟨WriteAction.issue (derivedKey acct false key 0) S,
         { key := key, account := acct, insecureFallback := false, chunkBuffer := [],
           chunkCount := 1, err := KError.NoError, errorString := "",
           isJobRunning := true }, true⟩ := by
    rw [slotWriteJobDone]
    simp [hS, hos]
    omega
  show WriteOkOutcome (runWriteFrom os cs mc okBeh (S.length + 2) 0 none
    { key := key, account := acct, insecureFallback := false, chunkBuffer := S,
      chunkCount := 0, err := KError.NoError, errorString := "", isJobRunning := true })
    [(derivedKey acct false key 0, S)]
  rw [show S.length + 2 = (S.length + 1) + 1 from rfl]
  rw [runWriteFrom_step_issue _ _ _ _ _ _ _ _ _ _ _ _ _ _ hissue rfl]
  have hdone : slotWriteJobDone os cs mc
      (some { error := KError.NoError, errorString := "",
              key := derivedKey acct false key 0 })
      { key := key, account := acct, insecureFallback := false, chunkBuffer := [],
        chunkCount := 1, err := KError.NoError, errorString := "",
        isJobRunning := true }
      = ⟨WriteAction.done,
         { key := key, account := acct, insecureFallback := false, chunkBuffer := [],
           chunkCount := 1, err := KError.NoError, errorString := "",
           isJobRunning := false }, true⟩ := by
    rw [slotWriteJobDone]
    simp
  rw [show S.length + 1 = S.length + 1 from rfl, runWriteFrom_step_done _ _ _ _ _ _ _ _ _ _ hdone]
  rw [if_pos rfl]
  exact ⟨rfl, rfl, rfl, rfl, rfl, rfl⟩

theorem readStartKck_eq (st : ReadState) :
    readStartKck st = derivedKey st.account st.keychainMigration st.key 0 := by
  unfold readStartKck derivedKey
  cases st.account with
  | none => rw [chunkKey_zero]
  | some a => rw [chunkKey_zero]

theorem readNextKck_eq (st : ReadState) (hc : 0 < st.chunkCount) :
    readNextKck st = derivedKey st.account st.keychainMigration st.key st.chunkCount := by
  unfold readNextKck derivedKey
  cases st.account with
  | none => rw [chunkKey_pos st.key st.chunkCount hc]
  | some a => rw [chunkKey_pos st.key st.chunkCount hc]

theorem runReadFromMap_step_issue (os : BuildOS) (mc : Nat) (m : List (String × ByteBuf))
    (f : Nat) (kck : String) (st : ReadState) :
    runReadFromMap os mc m (f + 1) ⟨ReadAction.issue kck, st⟩
      = runReadFromMap os mc m f (slotReadJobDone os mc (some (backendRead m kck)) st) := rfl

theorem runReadFromMap_step_done (os : BuildOS) (mc : Nat) (m : List (String × ByteBuf))
    (f : Nat) (st : ReadState) :
    runReadFromMap os mc m (f + 1) ⟨ReadAction.done, st⟩ = st := rfl

theorem runReadFromMap_step_retry (os : BuildOS) (mc : Nat) (m : List (String × ByteBuf))
    (f d : Nat) (st : ReadState) :
    runReadFromMap os mc m (f + 1) ⟨ReadAction.retryLater d, st⟩
      = runReadFromMap os mc m f (readStart st) := rfl

theorem runReadFromBeh_step_issue (os : BuildOS) (mc : Nat) (beh : Nat → ReadDone)
    (f opc : Nat) (kck : String) (st : ReadState) :
    runReadFromBeh os mc beh (f + 1) opc ⟨ReadAction.issue kck, st⟩
      = runReadFromBeh os mc beh f (opc + 1) (slotReadJobDone os mc (some (beh opc)) st) := rfl

theorem runReadFromBeh_step_done (os : BuildOS) (mc : Nat) (beh : Nat → ReadDone)
    (f opc : Nat) (st : ReadState) :
    runReadFromBeh os mc beh (f + 1) opc ⟨ReadAction.done, st⟩ = st := rfl

theorem runReadFromBeh_step_retry (os : BuildOS) (mc : Nat) (beh : Nat → ReadDone)
    (f opc d : Nat) (st : ReadState) :
    runReadFromBeh os mc beh (f + 1) opc ⟨ReadAction.retryLater d, st⟩
      = runReadFromBeh os mc beh f opc (readStart st) := rfl

theorem mul_lt_len_of_lt_ceil (cs len j : Nat) (hcs : 0 < cs) (hlen : 0 < len)
    (hj : j < (len + cs - 1) / cs) : cs * j < len := by
  have h1 := Nat.div_mul_le_self (len + cs - 1) cs
  have h2 : (j + 1) * cs ≤ ((len + cs - 1) / cs) * cs := Nat.mul_le_mul_right cs (by omega)
  have h3 : (j + 1) * cs = j * cs + cs := Nat.succ_mul j cs
  have h4 : cs * j = j * cs := Nat.mul_comm cs j
  omega

theorem len_le_mul_ceil (cs len : Nat) (hcs : 0 < cs) :
    len ≤ cs * ((len + cs - 1) / cs) := by
  have h1 := Nat.div_add_mod (len + cs - 1) cs
  have h2 : (len + cs - 1) % cs < cs := Nat.mod_lt _ hcs
  omega

theorem one_le_ceil (cs len : Nat) (hcs : 0 < cs) (hlen : 0 < len) :
    1 ≤ (len + cs - 1) / cs := by
  rw [Nat.le_div_iff_mul_le hcs]
  omega

theorem runReadFromMap_ok_win (cs mc : Nat) (hcs : 0 < cs) (key : String)
    (acct : Option Account) (fb rp : Bool) (S : ByteBuf) (hS : 0 < S.length) :
    ∀ (fuel j : Nat),
      numChunksWritten cs mc S.length - j + 2 ≤ fuel →
      j < mc → j ≤ numChunksWritten cs mc S.length →
      (runReadFromMap BuildOS.windows mc
          (chunkEntries (derivedKey acct false key) cs 0 (numChunksWritten cs mc S.length) S)
          fuel
          ⟨ReadAction.issue (derivedKey acct false key j),
           { key := key, account := acct, keychainMigration := false,
             insecureFallback := fb, retryOnKeyChainError := rp,
             chunkBuffer := S.take (cs * j), chunkCount := j,
             err := KError.NoError, errorString := "", isJobRunning := true }⟩).err
        = KError.NoError ∧
      (runReadFromMap BuildOS.windows mc
          (chunkEntries (derivedKey acct false key) cs 0 (numChunksWritten cs mc S.length) S)
          fuel
          ⟨ReadAction.issue (derivedKey acct false key j),
           { key := key, account := acct, keychainMigration := false,
             insecureFallback := fb, retryOnKeyChainError := rp,
             chunkBuffer := S.take (cs * j), chunkCount := j,
             err := KError.NoError, errorString := "", isJobRunning := true }⟩).errorString
        = "" ∧
      (runReadFromMap BuildOS.windows mc
          (chunkEntries (derivedKey acct false key) cs 0 (numChunksWritten cs mc S.length) S)
          fuel
          ⟨ReadAction.issue (derivedKey acct false key j),
           { key := key, account := acct, keychainMigration := false,
             insecureFallback := fb, retryOnKeyChainError := rp,
             chunkBuffer := S.take (cs * j), chunkCount := j,
             err := KError.NoError, errorString := "", isJobRunning := true }⟩).isJobRunning
        = false ∧
      (runReadFromMap BuildOS.windows mc
          (chunkEntries (derivedKey acct false key) cs 0 (numChunksWritten cs mc S.length) S)
          fuel
          ⟨ReadAction.issue (derivedKey acct false key j),
           { key := key, account := acct, keychainMigration := false,
             insecureFallback := fb, retryOnKeyChainError := rp,
             chunkBuffer := S.take (cs * j), chunkCount := j,
             err := KError.NoError, errorString := "", isJobRunning := true }⟩).chunkBuffer
        = S.take (cs * mc) := by
  intro fuel
  induction fuel with
  | zero => intro j hf hjmc hjn; omega
  | succ f ih =>
    intro j hf hjmc hjn
    rw [runReadFromMap_step_issue]
    by_cases hjlt : j < numChunksWritten cs mc S.length
    · -- chunk j is present in the backend
      have hjchunk : cs * j < S.length := by
        apply mul_lt_len_of_lt_ceil cs S.length j hcs hS
        have : numChunksWritten cs mc S.length ≤ (S.length + cs - 1) / cs := Nat.min_le_left _ _
        omega
      have hlook : lookupKey
          (chunkEntries (derivedKey acct false key) cs 0 (numChunksWritten cs mc S.length) S)
          (derivedKey acct false key j)
          = some ((S.drop (cs * j)).take cs) := by
        rw [lookupKey_chunkEntries (derivedKey acct false key)
          (derivedKey_injective acct false key) cs _ 0 S j,
          if_pos (by omega)]
        rw [Nat.sub_zero]
      have hread : backendRead
          (chunkEntries (derivedKey acct false key) cs 0 (numChunksWritten cs mc S.length) S)
          (derivedKey acct false key j)
          = { error := KError.NoError, errorString := "",
              data := (S.drop (cs * j)).take cs } := by
        unfold backendRead
        rw [hlook]
      rw [hread]
      have hne : 0 < ((S.drop (cs * j)).take cs).length := by
        rw [List.length_take, List.length_drop]
        omega
      have hbufstep : S.take (cs * j) ++ (S.drop (cs * j)).take cs = S.take (cs * (j + 1)) := by
        rw [show cs * (j + 1) = cs * j + cs from Nat.mul_succ cs j, List.take_add]
      by_cases hnext : j + 1 < mc
      · have hslot : slotReadJobDone BuildOS.windows mc
            (some { error := KError.NoError, errorString := "",
                    data := (S.drop (cs * j)).take cs })
            { key := key, account := acct, keychainMigration := false,
              insecureFallback := fb, retryOnKeyChainError := rp,
              chunkBuffer := S.take (cs * j), chunkCount := j,
              err := KError.NoError, errorString := "", isJobRunning := true }
            = ⟨ReadAction.issue (derivedKey acct false key (j + 1)),
               { key := key, account := acct, keychainMigration := false,
                 insecureFallback := fb, retryOnKeyChainError := rp,
                 chunkBuffer := S.take (cs * (j + 1)), chunkCount := j + 1,
                 err := KError.NoError, errorString := "", isJobRunning := true }⟩ := by
          simp only [slotReadJobDone, BuildOS.win]
          rw [if_pos (show True ∧ 0 < ((S.drop (cs * j)).take cs).length from ⟨trivial, hne⟩)]
          rw [if_pos trivial, if_pos hnext, hbufstep]
          have hkck := readNextKck_eq
            { key := key, account := acct, keychainMigration := false,
              insecureFallback := fb, retryOnKeyChainError := rp,
              chunkBuffer := S.take (cs * (j + 1)), chunkCount := j + 1,
              err := KError.NoError, errorString := "", isJobRunning := true }
            (by show 0 < j + 1; omega)
          rw [hkck]
        rw [hslot]
        exact ih (j + 1) (by omega) hnext (by omega)
      · have hjeq : j + 1 = mc := by omega
        have hslot : slotReadJobDone BuildOS.windows mc
            (some { error := KError.NoError, errorString := "",
                    data := (S.drop (cs * j)).take cs })
            { key := key, account := acct, keychainMigration := false,
              insecureFallback := fb, retryOnKeyChainError := rp,
              chunkBuffer := S.take (cs * j), chunkCount := j,
              err := KError.NoError, errorString := "", isJobRunning := true }
            = ⟨ReadAction.done,
               { key := key, account := acct, keychainMigration := false,
                 insecureFallback := fb, retryOnKeyChainError := rp,
                 chunkBuffer := S.take (cs * (j + 1)), chunkCount := j + 1,
                 err := KError.NoError, errorString := "", isJobRunning := false }⟩ := by
          simp only [slotReadJobDone, BuildOS.win]
          rw [if_pos (show True ∧ 0 < ((S.drop (cs * j)).take cs).length from ⟨trivial, hne⟩)]
          rw [if_pos trivial, if_neg (show ¬ (j + 1 < mc) by omega), hbufstep]
        rw [hslot]
        cases f with
        | zero => omega
        | succ f2 =>
          rw [runReadFromMap_step_done]
          rw [hjeq]
          exact ⟨rfl, rfl, rfl, rfl⟩
    · -- j equals the number of stored chunks: the read misses
      have hjeq : j = numChunksWritten cs mc S.length := by omega
      have hnlt : numChunksWritten cs mc S.length < mc := by omega
      have hnceil : numChunksWritten cs mc S.length = (S.length + cs - 1) / cs := by
        unfold numChunksWritten
        unfold numChunksWritten at hnlt
        omega
      have hcov : S.length ≤ cs * j := by
        rw [hjeq, hnceil]
        exact len_le_mul_ceil cs S.length hcs
      have hn1 : 1 ≤ j := by
        rw [hjeq, hnceil]
        exact one_le_ceil cs S.length hcs hS
      have hlook : lookupKey
          (chunkEntries (derivedKey acct false key) cs 0 (numChunksWritten cs mc S.length) S)
          (derivedKey acct false key j)
          = none := by
        rw [lookupKey_chunkEntries (derivedKey acct false key)
          (derivedKey_injective acct false key) cs _ 0 S j,
          if_neg (by omega)]
      have hread : backendRead
          (chunkEntries (derivedKey acct false key) cs 0 (numChunksWritten cs mc S.length) S)
          (derivedKey acct false key j)
          = { error := KError.EntryNotFound, errorString := "Entry not found",
              data := [] } := by
        unfold backendRead
        rw [hlook]
      rw [hread]
      have hslot : slotReadJobDone BuildOS.windows mc
          (some { error := KError.EntryNotFound, errorString := "Entry not found",
                  data := [] })
          { key := key, account := acct, keychainMigration := false,
            insecureFallback := fb, retryOnKeyChainError := rp,
            chunkBuffer := S.take (cs * j), chunkCount := j,
            err := KError.NoError, errorString := "", isJobRunning := true }
          = ⟨ReadAction.done,
             { key := key, account := acct, keychainMigration := false,
               insecureFallback := fb, retryOnKeyChainError := rp,
               chunkBuffer := S.take (cs * j), chunkCount := j,
               err := KError.NoError, errorString := "", isJobRunning := false }⟩ := by
        simp [slotReadJobDone, BuildOS.win, BuildOS.unixNotMac, show ¬ j = 0 by omega]
      rw [hslot]
      cases f with
      | zero => omega
      | succ f2 =>
        rw [runReadFromMap_step_done]
        have htake1 : S.take (cs * j) = S := List.take_of_length_le hcov
        have htake2 : S.take (cs * mc) = S := by
          apply List.take_of_length_le
          calc S.length ≤ cs * j := hcov
          _ ≤ cs * mc := Nat.mul_le_mul_left cs (by omega)
        rw [htake1, htake2]
        exact ⟨rfl, rfl, rfl, rfl⟩

theorem readStart_init (cs : Nat) (key : String) (acct : Option Account) (S : ByteBuf) :
    readStart (initRead acct key false)
      = ⟨ReadAction.issue (derivedKey acct false key 0),
         { key := key, account := acct, keychainMigration := false,
           insecureFallback := false, retryOnKeyChainError := true,
           chunkBuffer := S.take (cs * 0), chunkCount := 0,
           err := KError.NoError, errorString := "", isJobRunning := true }⟩ := by
  unfold readStart initRead
  rw [readStartKck_eq]
  rfl

theorem runReadMap_ok_win (cs mc : Nat) (hcs : 0 < cs) (hmc : 0 < mc) (key : String)
    (acct : Option Account) (S : ByteBuf) (hS : 0 < S.length) :
    (runReadMap BuildOS.windows mc
        (chunkEntries (derivedKey acct false key) cs 0 (numChunksWritten cs mc S.length) S)
        (initRead acct key false)).err = KError.NoError ∧
    (runReadMap BuildOS.windows mc
        (chunkEntries (derivedKey acct false key) cs 0 (numChunksWritten cs mc S.length) S)
        (initRead acct key false)).errorString = "" ∧
    (runReadMap BuildOS.windows mc
        (chunkEntries (derivedKey acct false key) cs 0 (numChunksWritten cs mc S.length) S)
        (initRead acct key false)).isJobRunning = false ∧
    (runReadMap BuildOS.windows mc
        (chunkEntries (derivedKey acct false key) cs 0 (numChunksWritten cs mc S.length) S)
        (initRead acct key false)).chunkBuffer = S.take (cs * mc) := by
  have h := runReadFromMap_ok_win cs mc hcs key acct false true S hS (mc + 2) 0
    (by
      have h1 : numChunksWritten cs mc S.length ≤ mc := Nat.min_le_right _ _
      omega)
    hmc (by omega)
  rw [show runReadMap BuildOS.windows mc
      (chunkEntries (derivedKey acct false key) cs 0 (numChunksWritten cs mc S.length) S)
      (initRead acct key false)
      = runReadFromMap BuildOS.windows mc
        (chunkEntries (derivedKey acct false key) cs 0 (numChunksWritten cs mc S.length) S)
        (mc + 2) (readStart (initRead acct key false)) from rfl]
  rw [readStart_init cs key acct S]
  exact h

theorem runWrite_empty (os : BuildOS) (cs mc : Nat) (key : String) (acct : Option Account) :
    runWrite os cs mc okBeh (initWrite acct key [])
      = ({ key := key, account := acct, insecureFallback := false, chunkBuffer := [],
           chunkCount := 0, err := KError.NoError, errorString := "",
           isJobRunning := false }, [], []) := by
  have hdone0 : slotWriteJobDone os cs mc none
      { key := key, account := acct, insecureFallback := false, chunkBuffer := [],
        chunkCount := 0, err := KError.NoError, errorString := "", isJobRunning := true }
      = ⟨WriteAction.done,
         { key := key, account := acct, insecureFallback := false, chunkBuffer := [],
           chunkCount := 0, err := KError.NoError, errorString := "",
           isJobRunning := false }, true⟩ := by
    rw [slotWriteJobDone]
    simp
  show runWriteFrom os cs mc okBeh (List.length ([] : ByteBuf) + 2) 0 none
    { key := key, account := acct, insecureFallback := false, chunkBuffer := [],
      chunkCount := 0, err := KError.NoError, errorString := "", isJobRunning := true } = _
  rw [show List.length ([] : ByteBuf) + 2 = 1 + 1 from rfl]
  rw [runWriteFrom_step_done _ _ _ _ _ _ _ _ _ _ hdone0]

/-- Claim C10: starting a WriteJob whose payload is the empty byte sequence
issues zero backend write operations (nothing issued, nothing stored) and
immediately completes with no error recorded (error state NoError, running
flag cleared, startAwait reports success), so no backend entry is created for
an empty secret.  Holds on every platform. -/
theorem C10_empty_write (os : BuildOS) (cs mc : Nat) (key : String) (acct : Option Account) :
    (runWrite os cs mc okBeh (initWrite acct key [])).2.1 = [] ∧
    (runWrite os cs mc okBeh (initWrite acct key [])).2.2 = [] ∧
    (runWrite os cs mc okBeh (initWrite acct key [])).1.err = KError.NoError ∧
    (runWrite os cs mc okBeh (initWrite acct key [])).1.isJobRunning = false ∧
    writeStartAwaitOk (runWrite os cs mc okBeh (initWrite acct key [])).1 = true := by
  rw [runWrite_empty]
  exact ⟨rfl, rfl, rfl, rfl, rfl⟩

/-- Claim C9 counterexample: on the initial invocation from WriteJob::start,
which passes a null pointer, slotWriteJobDone does reach a member call on the
incoming pointer (the trailing writeJob deleteLater at line 179), so the
claimed null-safety fails at this concrete input. -/
theorem C9_null_deref_counterexample :
    (slotWriteJobDone BuildOS.windows 2048 10 none
      { key := "cred9", account := none, insecureFallback := false,
        chunkBuffer := [1, 2], chunkCount := 0, err := KError.NoError,
        errorString := "", isJobRunning := true }).derefIncoming = true := by
  decide

/-- Claim C9 (amended): in WriteJob::slotWriteJobDone the reads of the incoming
job error and error string are guarded by the non-null check (an invocation
with a null pointer leaves the recorded error and message untouched), but the
trailing writeJob deleteLater at line 179 (and the key and deleteLater calls
of the cutoff branch) are executed on every path, so every invocation with a
null incoming pointer, including the initial one from WriteJob::start,
performs a member call on that null pointer. -/
theorem C9_initial_invocation_null (os : BuildOS) (cs mc : Nat) (st : WriteState) :
    (slotWriteJobDone os cs mc none st).derefIncoming = true ∧
    (slotWriteJobDone os cs mc none st).st.err = st.err ∧
    (slotWriteJobDone os cs mc none st).st.errorString = st.errorString := by
  by_cases h1 : st.chunkBuffer = []
  · simp [slotWriteJobDone, h1]
  · by_cases h2 : st.chunkCount + 1 > mc
    · simp [slotWriteJobDone, h1, h2]
    · simp [slotWriteJobDone, h1, h2]

/-- Claim C5: a backend read completion reporting EntryNotFound is
terminal-error exactly when zero chunks have been read so far (the job records
EntryNotFound with the completion message and finishes), and terminal-success
when at least one chunk was already read (the job keeps its NoError state and
its reassembled chunks and finishes). -/
theorem C5_entry_not_found :
    (∀ (os : BuildOS) (mc : Nat) (r : ReadDone) (st : ReadState),
      r.error = KError.EntryNotFound → st.chunkCount = 0 →
      (slotReadJobDone os mc (some r) st).action = ReadAction.done ∧
      (slotReadJobDone os mc (some r) st).st.err = KError.EntryNotFound ∧
      (slotReadJobDone os mc (some r) st).st.errorString = r.errorString ∧
      (slotReadJobDone os mc (some r) st).st.isJobRunning = false) ∧
    (∀ (os : BuildOS) (mc : Nat) (r : ReadDone) (st : ReadState),
      r.error = KError.EntryNotFound → 0 < st.chunkCount → st.err = KError.NoError →
      (slotReadJobDone os mc (some r) st).action = ReadAction.done ∧
      (slotReadJobDone os mc (some r) st).st.err = KError.NoError ∧
      (slotReadJobDone os mc (some r) st).st.chunkBuffer = st.chunkBuffer ∧
      (slotReadJobDone os mc (some r) st).st.isJobRunning = false) := by
  constructor
  · intro os mc r st hr h0
    by_cases hpc : (os.unixNotMac = true ∧ st.insecureFallback = false)
    · simp [slotReadJobDone, hr, h0, hpc]
    · simp [slotReadJobDone, hr, h0, hpc]
  · intro os mc r st hr h0 herr
    have h0ne : ¬ st.chunkCount = 0 := by omega
    by_cases hpc : (os.unixNotMac = true ∧ st.insecureFallback = false)
    · simp [slotReadJobDone, hr, h0ne, hpc, herr]
    · simp [slotReadJobDone, hr, h0ne, hpc, herr]

/-- Claim C5 witness: the two parts of C5_entry_not_found applied at concrete
inputs. -/
theorem C5_entry_not_found_witness :
    ((slotReadJobDone BuildOS.windows 10
        (some { error := KError.EntryNotFound, errorString := "gone", data := [] })
        { key := "cred5", account := none, keychainMigration := false,
          insecureFallback := false, retryOnKeyChainError := true,
          chunkBuffer := [], chunkCount := 0, err := KError.NoError,
          errorString := "", isJobRunning := true }).st.err = KError.EntryNotFound) ∧
    ((slotReadJobDone BuildOS.windows 10
        (some { error := KError.EntryNotFound, errorString := "gone", data := [] })
        { key := "cred5", account := none, keychainMigration := false,
          insecureFallback := false, retryOnKeyChainError := true,
          chunkBuffer := [3, 4], chunkCount := 1, err := KError.NoError,
          errorString := "", isJobRunning := true }).st.err = KError.NoError) :=
  ⟨(C5_entry_not_found.1 BuildOS.windows 10
      { error := KError.EntryNotFound, errorString := "gone", data := [] }
      { key := "cred5", account := none, keychainMigration := false,
        insecureFallback := false, retryOnKeyChainError := true,
        chunkBuffer := [], chunkCount := 0, err := KError.NoError,
        errorString := "", isJobRunning := true } rfl rfl).2.1,
   (C5_entry_not_found.2 BuildOS.windows 10
      { error := KError.EntryNotFound, errorString := "gone", data := [] }
      { key := "cred5", account := none, keychainMigration := false,
        insecureFallback := false, retryOnKeyChainError := true,
        chunkBuffer := [3, 4], chunkCount := 1, err := KError.NoError,
        errorString := "", isJobRunning := true } rfl (by decide) rfl).2.1⟩

/-- Claim C6 counterexample: a backend read completion returning empty data
with error NoError (no entry-not-found failure, no retry applicable since
NoError is not a transient error) does not transition the job to an error
completion: the recorded error stays NoError, startAwait reports success and
the reassembly buffer is returned to the caller untouched. -/
theorem C6_empty_data_counterexample :
    (slotReadJobDone BuildOS.windows 10
        (some { error := KError.NoError, errorString := "", data := [] })
        { key := "cred6", account := none, keychainMigration := false,
          insecureFallback := false, retryOnKeyChainError := true,
          chunkBuffer := [5], chunkCount := 1, err := KError.NoError,
          errorString := "", isJobRunning := true }).action = ReadAction.done ∧
    (slotReadJobDone BuildOS.windows 10
        (some { error := KError.NoError, errorString := "", data := [] })
        { key := "cred6", account := none, keychainMigration := false,
          insecureFallback := false, retryOnKeyChainError := true,
          chunkBuffer := [5], chunkCount := 1, err := KError.NoError,
          errorString := "", isJobRunning := true }).st.err = KError.NoError ∧
    (slotReadJobDone BuildOS.windows 10
        (some { error := KError.NoError, errorString := "", data := [] })
        { key := "cred6", account := none, keychainMigration := false,
          insecureFallback := false, retryOnKeyChainError := true,
          chunkBuffer := [5], chunkCount := 1, err := KError.NoError,
          errorString := "", isJobRunning := true }).st.chunkBuffer = [5] ∧
    (readStartAwaitResult (slotReadJobDone BuildOS.windows 10
        (some { error := KError.NoError, errorString := "", data := [] })
        { key := "cred6", account := none, keychainMigration := false,
          insecureFallback := false, retryOnKeyChainError := true,
          chunkBuffer := [5], chunkCount := 1, err := KError.NoError,
          errorString := "", isJobRunning := true }).st).1 = true := by
  decide

/-- Claim C6 (amended): a read completion that reports a failure (error other
than NoError) that is not the EntryNotFound-with-chunks-read end-of-data case,
with no retry applicable, records the error kind and message, finishes, and
the blocking startAwait wrapper reports failure and discards the reassembly
buffer and chunk count; a completion with error NoError but empty data,
however, records NoError and finishes as a success, with the reassembly
buffer retained. -/
theorem C6_read_failure_handling :
    (∀ (os : BuildOS) (mc : Nat) (r : ReadDone) (st : ReadState),
      r.error ≠ KError.NoError →
      (r.error = KError.EntryNotFound → st.chunkCount = 0) →
      ¬(os.unixNotMac = true ∧ st.insecureFallback = false ∧
        st.retryOnKeyChainError = true ∧
        (r.error = KError.NoBackendAvailable ∨ r.error = KError.OtherError)) →
      (slotReadJobDone os mc (some r) st).action = ReadAction.done ∧
      (slotReadJobDone os mc (some r) st).st.err = r.error ∧
      (slotReadJobDone os mc (some r) st).st.errorString = r.errorString ∧
      (slotReadJobDone os mc (some r) st).st.isJobRunning = false ∧
      (readStartAwaitResult (slotReadJobDone os mc (some r) st).st).1 = false ∧
      (readStartAwaitResult (slotReadJobDone os mc (some r) st).st).2.chunkBuffer = [] ∧
      (readStartAwaitResult (slotReadJobDone os mc (some r) st).st).2.chunkCount = 0) ∧
    (∀ (os : BuildOS) (mc : Nat) (r : ReadDone) (st : ReadState),
      r.error = KError.NoError → r.data = [] → st.err = KError.NoError →
      (slotReadJobDone os mc (some r) st).action = ReadAction.done ∧
      (slotReadJobDone os mc (some r) st).st.err = KError.NoError ∧
      (slotReadJobDone os mc (some r) st).st.chunkBuffer = st.chunkBuffer ∧
      (readStartAwaitResult (slotReadJobDone os mc (some r) st).st).1 = true ∧
      (readStartAwaitResult (slotReadJobDone os mc (some r) st).st).2.chunkBuffer
        = st.chunkBuffer) := by
  constructor
  · intro os mc r st hne himpl hnoretry
    have hrecord : r.error ≠ KError.EntryNotFound ∨
        (r.error = KError.EntryNotFound ∧ st.chunkCount = 0) := by
      by_cases h : r.error = KError.EntryNotFound
      · exact Or.inr ⟨h, himpl h⟩
      · exact Or.inl h
    by_cases hpc : (os.unixNotMac = true ∧ st.insecureFallback = false)
    · have hnr2 : ¬(st.retryOnKeyChainError = true ∧
          (r.error = KError.NoBackendAvailable ∨ r.error = KError.OtherError)) :=
        fun hc => hnoretry ⟨hpc.1, hpc.2, hc.1, hc.2⟩
      by_cases h : r.error = KError.EntryNotFound
      · simp [slotReadJobDone, readStartAwaitResult, hne, hpc, hnr2, h, himpl h]
      · simp [slotReadJobDone, readStartAwaitResult, hne, hpc, hnr2, h]
    · simp [slotReadJobDone, readStartAwaitResult, hne, hnoretry, hpc, hrecord]
  · intro os mc r st hok hdata herr
    have hd : r.data.length = 0 := by rw [hdata]; rfl
    by_cases hpc : (os.unixNotMac = true ∧ st.insecureFallback = false)
    · simp [slotReadJobDone, readStartAwaitResult, hok, hd, hpc, herr]
    · simp [slotReadJobDone, readStartAwaitResult, hok, hd, hpc, herr]

/-- Claim C6 witness: the two parts of C6_read_failure_handling applied at
concrete inputs (a concrete AccessDenied failure, and a concrete NoError
completion with empty data). -/
theorem C6_read_failure_handling_witness :
    ((slotReadJobDone BuildOS.windows 10
        (some { error := KError.AccessDenied, errorString := "denied", data := [] })
        { key := "cred6b", account := none, keychainMigration := false,
          insecureFallback := false, retryOnKeyChainError := true,
          chunkBuffer := [9], chunkCount := 1, err := KError.NoError,
          errorString := "", isJobRunning := true }).st.err = KError.AccessDenied) ∧
    ((slotReadJobDone BuildOS.windows 10
        (some { error := KError.NoError, errorString := "", data := [] })
        { key := "cred6b", account := none, keychainMigration := false,
          insecureFallback := false, retryOnKeyChainError := true,
          chunkBuffer := [9], chunkCount := 1, err := KError.NoError,
          errorString := "", isJobRunning := true }).st.err = KError.NoError) :=
  ⟨(C6_read_failure_handling.1 BuildOS.windows 10
      { error := KError.AccessDenied, errorString := "denied", data := [] }
      { key := "cred6b", account := none, keychainMigration := false,
        insecureFallback := false, retryOnKeyChainError := true,
        chunkBuffer := [9], chunkCount := 1, err := KError.NoError,
        errorString := "", isJobRunning := true }
      (by decide) (by intro h; cases h) (by decide)).2.1,
   (C6_read_failure_handling.2 BuildOS.windows 10
      { error := KError.NoError, errorString := "", data := [] }
      { key := "cred6b", account := none, keychainMigration := false,
        insecureFallback := false, retryOnKeyChainError := true,
        chunkBuffer := [9], chunkCount := 1, err := KError.NoError,
        errorString := "", isJobRunning := true }
      rfl rfl rfl).2.1⟩

/-- Claim C7: when a backend write completion reports an error, WriteJob
slotWriteJobDone records that error kind and message, discards the remaining
pending buffer, issues no further backend write (the step action is done) and
finishes; and in a full run in which the backend write with index k fails, the
job ends in that error state, exactly k plus one writes were issued, and the k
chunks already written are left in place in the backend store with their
derived keys (no rollback). -/
theorem C7_write_error_aborts :
    (∀ (os : BuildOS) (cs mc : Nat) (j : WriteDone) (st : WriteState),
      j.error ≠ KError.NoError →
      slotWriteJobDone os cs mc (some j) st
        = ⟨WriteAction.done,
           { st with
             err := j.error, errorString := j.errorString, chunkBuffer := [],
             isJobRunning := false }, true⟩) ∧
    (∀ (cs mc : Nat) (key : String) (acct : Option Account) (S : ByteBuf)
       (e : KError) (msg : String) (k : Nat),
      0 < cs → e ≠ KError.NoError → k < mc → cs * k < S.length →
      (runWrite BuildOS.windows cs mc (failAt k e msg) (initWrite acct key S)).1.err = e ∧
      (runWrite BuildOS.windows cs mc (failAt k e msg)
        (initWrite acct key S)).1.errorString = msg ∧
      (runWrite BuildOS.windows cs mc (failAt k e msg)
        (initWrite acct key S)).1.chunkBuffer = [] ∧
      (runWrite BuildOS.windows cs mc (failAt k e msg)
        (initWrite acct key S)).1.isJobRunning = false ∧
      (runWrite BuildOS.windows cs mc (failAt k e msg)
        (initWrite acct key S)).2.1.length = k + 1 ∧
      (runWrite BuildOS.windows cs mc (failAt k e msg) (initWrite acct key S)).2.2
        = chunkEntries (derivedKey acct false key) cs 0 k S) := by
  constructor
  · intro os cs mc j st hj
    exact slotWriteJobDone_error os cs mc j st hj
  · intro cs mc key acct S e msg k hcs he hk hklen
    obtain ⟨h1, h2, h3, h4, h5, h6⟩ :=
      runWrite_fail_win cs mc hcs key acct S e msg he k hk hklen
    refine ⟨h1, h2, h4, h3, ?_, h6⟩
    rw [h5, chunkEntries_length]

/-- Claim C7 witness: C7_write_error_aborts applied at concrete inputs: a
six-byte payload split into chunks of two bytes, with the second backend
write failing with AccessDenied. -/
theorem C7_write_error_aborts_witness :
    (slotWriteJobDone BuildOS.windows 2 5
        (some { error := KError.AccessDenied, errorString := "denied", key := "cred7" })
        { key := "cred7", account := none, insecureFallback := false,
          chunkBuffer := [5, 6], chunkCount := 1, err := KError.NoError,
          errorString := "", isJobRunning := true }
      = ⟨WriteAction.done,
         { key := "cred7", account := none, insecureFallback := false,
           chunkBuffer := [], chunkCount := 1, err := KError.AccessDenied,
           errorString := "denied", isJobRunning := false }, true⟩) ∧
    ((runWrite BuildOS.windows 2 5 (failAt 1 KError.AccessDenied "denied")
        (initWrite none "cred7" [1, 2, 3, 4, 5, 6])).1.err = KError.AccessDenied) ∧
    ((runWrite BuildOS.windows 2 5 (failAt 1 KError.AccessDenied "denied")
        (initWrite none "cred7" [1, 2, 3, 4, 5, 6])).2.1.length = 2) :=
  ⟨C7_write_error_aborts.1 BuildOS.windows 2 5
      { error := KError.AccessDenied, errorString := "denied", key := "cred7" }
      { key := "cred7", account := none, insecureFallback := false,
        chunkBuffer := [5, 6], chunkCount := 1, err := KError.NoError,
        errorString := "", isJobRunning := true } (by decide),
   (C7_write_error_aborts.2 2 5 "cred7" none [1, 2, 3, 4, 5, 6]
      KError.AccessDenied "denied" 1
      (by decide) (by decide) (by decide) (by decide)).1,
   (C7_write_error_aborts.2 2 5 "cred7" none [1, 2, 3, 4, 5, 6]
      KError.AccessDenied "denied" 1
      (by decide) (by decide) (by decide) (by decide)).2.2.2.2.1⟩

/-- Claim C8: key derivation is deterministic and structural: with no account
scope the derived storage key for chunk index 0 is the logical name and for a
positive index it is the logical name, a dot and the decimal index; the read
machine derives its first-chunk and next-chunk keys through exactly this
derivation; and with an account scope, migration mode omits the account
identifier component of the scope-qualified key while normal mode appends it,
for every chunk index. -/
theorem C8_key_derivation :
    (∀ (mig : Bool) (key : String), derivedKey none mig key 0 = key) ∧
    (∀ (mig : Bool) (key : String) (i : Nat), 0 < i →
      derivedKey none mig key i = key ++ "." ++ qstringNumber i) ∧
    (∀ st : ReadState,
      readStartKck st = derivedKey st.account st.keychainMigration st.key 0) ∧
    (∀ st : ReadState, 0 < st.chunkCount →
      readNextKck st = derivedKey st.account st.keychainMigration st.key st.chunkCount) ∧
    (∀ (a : Account) (key : String) (i : Nat),
      derivedKey (some a) true key i = a.url ++ ":" ++ chunkKey key i) ∧
    (∀ (a : Account) (key : String) (i : Nat), a.id ≠ "" →
      derivedKey (some a) false key i
        = a.url ++ ":" ++ chunkKey key i ++ ":" ++ a.id) := by
  refine ⟨?_, ?_, readStartKck_eq, readNextKck_eq, ?_, ?_⟩
  · intro mig key
    show chunkKey key 0 = key
    exact chunkKey_zero key
  · intro mig key i hi
    show chunkKey key i = key ++ "." ++ qstringNumber i
    exact chunkKey_pos key i hi
  · intro a key i
    show keychainKey a.url (chunkKey key i) "" = a.url ++ ":" ++ chunkKey key i
    rw [keychainKey, if_pos rfl]
  · intro a key i hid
    show keychainKey a.url (chunkKey key i) a.id
      = a.url ++ ":" ++ chunkKey key i ++ ":" ++ a.id
    rw [keychainKey, if_neg hid]

/-- Claim C8 witness: C8_key_derivation applied at concrete inputs: the
unscoped keys for chunk indices 0 and 2, the scoped migration-mode key and the
scoped normal-mode key for chunk index 1. -/
theorem C8_key_derivation_witness :
    derivedKey none false "cred8" 0 = "cred8" ∧
    derivedKey none false "cred8" 2 = "cred8" ++ "." ++ qstringNumber 2 ∧
    derivedKey (some { url := "https://srv", id := "ac1" }) true "cred8" 1
      = "https://srv" ++ ":" ++ chunkKey "cred8" 1 ∧
    derivedKey (some { url := "https://srv", id := "ac1" }) false "cred8" 1
      = "https://srv" ++ ":" ++ chunkKey "cred8" 1 ++ ":" ++ "ac1" :=
  ⟨C8_key_derivation.1 false "cred8",
   C8_key_derivation.2.1 false "cred8" 2 (by decide),
   C8_key_derivation.2.2.2.2.1 { url := "https://srv", id := "ac1" } "cred8" 1,
   C8_key_derivation.2.2.2.2.2 { url := "https://srv", id := "ac1" } "cred8" 1
     (by decide)⟩

theorem runReadMap_empty (mc : Nat) (key : String) (acct : Option Account) :
    (runReadMap BuildOS.windows mc ([] : List (String × ByteBuf))
      (initRead acct key false)).err = KError.EntryNotFound := by
  have hslot0 : slotReadJobDone BuildOS.windows mc
      (some (backendRead [] (readStartKck (initRead acct key false))))
      { key := key, account := acct, keychainMigration := false, insecureFallback := false,
        retryOnKeyChainError := true, chunkBuffer := [], chunkCount := 0,
        err := KError.NoError, errorString := "", isJobRunning := true }
      = ⟨ReadAction.done,
         { key := key, account := acct, keychainMigration := false,
           insecureFallback := false, retryOnKeyChainError := true,
           chunkBuffer := [], chunkCount := 0,
           err := KError.EntryNotFound, errorString := "Entry not found",
           isJobRunning := false }⟩ := by
    simp [backendRead, lookupKey, slotReadJobDone, BuildOS.win, BuildOS.unixNotMac]
  have hstart : readStart (initRead acct key false)
      = ⟨ReadAction.issue (readStartKck (initRead acct key false)),
         { key := key, account := acct, keychainMigration := false,
           insecureFallback := false, retryOnKeyChainError := true,
           chunkBuffer := [], chunkCount := 0,
           err := KError.NoError, errorString := "", isJobRunning := true }⟩ := rfl
  show (runReadFromMap BuildOS.windows mc [] (mc + 2)
    (readStart (initRead acct key false))).err = _
  rw [hstart]
  rw [show mc + 2 = (mc + 1) + 1 from rfl]
  rw [runReadFromMap_step_issue, hslot0, runReadFromMap_step_done]

/-- Claim C1 counterexample: the claim includes the empty secret, but for the
empty secret the WriteJob stores nothing and completes with NoError while the
subsequent ReadJob completes with EntryNotFound instead of a clean completion,
at this concrete input with ChunkSize 4 and MaxChunks 3. -/
theorem C1_round_trip_counterexample :
    (runWrite BuildOS.windows 4 3 okBeh (initWrite none "cred1" [])).1.err
        = KError.NoError ∧
    (List.length ([] : ByteBuf) ≤ 4 * 3) ∧
    (runReadMap BuildOS.windows 3
        (runWrite BuildOS.windows 4 3 okBeh (initWrite none "cred1" [])).2.2
        (initRead none "cred1" false)).err = KError.EntryNotFound ∧
    KError.EntryNotFound ≠ KError.NoError := by
  decide

/-- Claim C1 (amended): for every nonempty secret S with length at most
ChunkSize times MaxChunks, performing a WriteJob for a key and scope with an
always-successful backend and then a ReadJob on the resulting backend entries
completes both jobs cleanly (error NoError, running flag cleared, startAwait
success) and the reassembled read buffer equals S byte for byte; for the empty
secret the WriteJob completes with NoError but the ReadJob completes with
EntryNotFound. -/
theorem C1_round_trip (cs mc : Nat) (key : String) (acct : Option Account)
    (S : ByteBuf) (hcs : 0 < cs) (hS : S ≠ []) (hlen : S.length ≤ cs * mc) :
    (runWrite BuildOS.windows cs mc okBeh (initWrite acct key S)).1.err
        = KError.NoError ∧
    (runWrite BuildOS.windows cs mc okBeh (initWrite acct key S)).1.isJobRunning
        = false ∧
    writeStartAwaitOk (runWrite BuildOS.windows cs mc okBeh (initWrite acct key S)).1
        = true ∧
    (runReadMap BuildOS.windows mc
        (runWrite BuildOS.windows cs mc okBeh (initWrite acct key S)).2.2
        (initRead acct key false)).err = KError.NoError ∧
    (runReadMap BuildOS.windows mc
        (runWrite BuildOS.windows cs mc okBeh (initWrite acct key S)).2.2
        (initRead acct key false)).isJobRunning = false ∧
    (runReadMap BuildOS.windows mc
        (runWrite BuildOS.windows cs mc okBeh (initWrite acct key S)).2.2
        (initRead acct key false)).chunkBuffer = S ∧
    (runWrite BuildOS.windows cs mc okBeh (initWrite acct key [])).1.err
        = KError.NoError ∧
    (runReadMap BuildOS.windows mc
        (runWrite BuildOS.windows cs mc okBeh (initWrite acct key [])).2.2
        (initRead acct key false)).err = KError.EntryNotFound := by
  have hlenpos : 0 < S.length := List.length_pos.mpr hS
  have hmc : 0 < mc := by
    rcases Nat.eq_zero_or_pos mc with h | h
    · subst h
      rw [Nat.mul_zero] at hlen
      omega
    · exact h
  obtain ⟨hw1, hw2, hw3, hw4, hw5, hw6⟩ := runWrite_ok_win cs mc hcs key acct S
  obtain ⟨hr1, hr2, hr3, hr4⟩ := runReadMap_ok_win cs mc hcs hmc key acct S hlenpos
  have htake : S.take (cs * mc) = S := List.take_of_length_le hlen
  rw [htake] at hr4
  refine ⟨hw1, hw3, ?_, ?_, ?_, ?_, ?_, ?_⟩
  · rw [writeStartAwaitOk, hw1]
    simp
  · rw [hw6]
    exact hr1
  · rw [hw6]
    exact hr3
  · rw [hw6]
    exact hr4
  · rw [runWrite_empty]
  · rw [runWrite_empty]
    exact runReadMap_empty mc key acct

/-- Claim C1 witness: C1_round_trip applied at a concrete five-byte secret
with ChunkSize 2 and MaxChunks 3. -/
theorem C1_round_trip_witness :
    (runWrite BuildOS.windows 2 3 okBeh (initWrite none "cred1w" [1, 2, 3, 4, 5])).1.err
        = KError.NoError ∧
    (runReadMap BuildOS.windows 3
        (runWrite BuildOS.windows 2 3 okBeh
          (initWrite none "cred1w" [1, 2, 3, 4, 5])).2.2
        (initRead none "cred1w" false)).chunkBuffer = [1, 2, 3, 4, 5] :=
  ⟨(C1_round_trip 2 3 "cred1w" none [1, 2, 3, 4, 5]
      (by decide) (by decide) (by decide)).1,
   (C1_round_trip 2 3 "cred1w" none [1, 2, 3, 4, 5]
      (by decide) (by decide) (by decide)).2.2.2.2.2.1⟩

/-- Claim C2 counterexample: for a three-byte payload with ChunkSize 1 and
MaxChunks 2, the WriteJob completes without any backend error yet issues only
2 backend writes, not ceil(3 / 1) = 3: the MaxChunks cutoff silently drops the
excess, so the claimed exact count fails. -/
theorem C2_chunk_count_counterexample :
    (runWrite BuildOS.windows 1 2 okBeh (initWrite none "cred2" [7, 8, 9])).1.err
        = KError.NoError ∧
    (runWrite BuildOS.windows 1 2 okBeh (initWrite none "cred2" [7, 8, 9])).2.1.length
        = 2 ∧
    (3 + 1 - 1) / 1 = 3 ∧ (2 : Nat) ≠ 3 := by
  decide

/-- Claim C2 (amended): an all-successful WriteJob on the chunk-splitting
platform issues exactly min(ceil(L / ChunkSize), MaxChunks) backend write
operations (which equals ceil(L / ChunkSize) whenever that quotient is within
MaxChunks), under the derived keys for indices 0, 1, 2, and so on in ascending
order; on a backend with no size cap it issues exactly one write carrying the
whole payload when the payload is nonempty, and none when it is empty. -/
theorem C2_chunk_count (cs mc : Nat) (key : String) (acct : Option Account)
    (S : ByteBuf) (hcs : 0 < cs) :
    (runWrite BuildOS.windows cs mc okBeh (initWrite acct key S)).1.err
        = KError.NoError ∧
    (runWrite BuildOS.windows cs mc okBeh (initWrite acct key S)).2.1.length
        = min ((S.length + cs - 1) / cs) mc ∧
    (runWrite BuildOS.windows cs mc okBeh (initWrite acct key S)).2.1.map Prod.fst
        = (List.range (min ((S.length + cs - 1) / cs) mc)).map
            (derivedKey acct false key) ∧
    (∀ os : BuildOS, os.win = false → 0 < mc → S ≠ [] →
      (runWrite os cs mc okBeh (initWrite acct key S)).2.1
        = [(derivedKey acct false key 0, S)]) ∧
    (∀ os : BuildOS, os.win = false →
      (runWrite os cs mc okBeh (initWrite acct key [])).2.1
        = ([] : List (String × ByteBuf))) := by
  obtain ⟨hw1, hw2, hw3, hw4, hw5, hw6⟩ := runWrite_ok_win cs mc hcs key acct S
  refine ⟨hw1, ?_, ?_, ?_, ?_⟩
  · rw [hw5, chunkEntries_length]
    rfl
  · rw [hw5, chunkEntries_map_fst]
    show (List.range (numChunksWritten cs mc S.length)).map
        (fun t => derivedKey acct false key (0 + t)) = _
    rw [show numChunksWritten cs mc S.length = min ((S.length + cs - 1) / cs) mc from rfl]
    simp [Nat.zero_add]
  · intro os hos hmc hS
    obtain ⟨g1, g2, g3, g4, g5, g6⟩ := runWrite_ok_nocap os hos cs mc hmc key acct S hS
    exact g5
  · intro os hos
    rw [runWrite_empty]

/-- Claim C2 witness: C2_chunk_count applied at a concrete five-byte payload
with ChunkSize 2 and MaxChunks 4, where ceil(5 / 2) = 3 chunks fit. -/
theorem C2_chunk_count_witness :
    (runWrite BuildOS.windows 2 4 okBeh (initWrite none "cred2w" [1, 2, 3, 4, 5])).2.1.length
        = min ((5 + 2 - 1) / 2) 4 ∧
    (runWrite BuildOS.unixOther 2 4 okBeh (initWrite none "cred2w" [1, 2, 3, 4, 5])).2.1
        = [(derivedKey none false "cred2w" 0, [1, 2, 3, 4, 5])] :=
  ⟨(C2_chunk_count 2 4 "cred2w" none [1, 2, 3, 4, 5] (by decide)).2.1,
   (C2_chunk_count 2 4 "cred2w" none [1, 2, 3, 4, 5] (by decide)).2.2.2.1
     BuildOS.unixOther rfl (by decide) (by decide)⟩

/-- Claim C3: writing a secret longer than ChunkSize times MaxChunks completes
with no error reported, the backend then holds exactly the first ChunkSize
times MaxChunks bytes of the secret, chunked in order under the re-derivable
keys for indices 0 through MaxChunks minus 1, and a subsequent ReadJob also
completes without error, returning exactly those first ChunkSize times
MaxChunks bytes. -/
theorem C3_truncation (cs mc : Nat) (key : String) (acct : Option Account)
    (S : ByteBuf) (hcs : 0 < cs) (hmc : 0 < mc) (hlen : cs * mc < S.length) :
    (runWrite BuildOS.windows cs mc okBeh (initWrite acct key S)).1.err
        = KError.NoError ∧
    (runWrite BuildOS.windows cs mc okBeh (initWrite acct key S)).1.isJobRunning
        = false ∧
    (((runWrite BuildOS.windows cs mc okBeh (initWrite acct key S)).2.2.map
        Prod.snd).flatten = S.take (cs * mc)) ∧
    ((runWrite BuildOS.windows cs mc okBeh (initWrite acct key S)).2.2.map Prod.fst
        = (List.range mc).map (derivedKey acct false key)) ∧
    (runReadMap BuildOS.windows mc
        (runWrite BuildOS.windows cs mc okBeh (initWrite acct key S)).2.2
        (initRead acct key false)).err = KError.NoError ∧
    (runReadMap BuildOS.windows mc
        (runWrite BuildOS.windows cs mc okBeh (initWrite acct key S)).2.2
        (initRead acct key false)).isJobRunning = false ∧
    (runReadMap BuildOS.windows mc
        (runWrite BuildOS.windows cs mc okBeh (initWrite acct key S)).2.2
        (initRead acct key false)).chunkBuffer = S.take (cs * mc) := by
  have hS : 0 < S.length := Nat.lt_of_le_of_lt (Nat.zero_le _) hlen
  have hn : numChunksWritten cs mc S.length = mc := by
    unfold numChunksWritten
    have hceil : mc ≤ (S.length + cs - 1) / cs := by
      rw [Nat.le_div_iff_mul_le hcs]
      have hcomm : mc * cs = cs * mc := Nat.mul_comm mc cs
      omega
    omega
  obtain ⟨hw1, hw2, hw3, hw4, hw5, hw6⟩ := runWrite_ok_win cs mc hcs key acct S
  obtain ⟨hr1, hr2, hr3, hr4⟩ := runReadMap_ok_win cs mc hcs hmc key acct S hS
  rw [hn] at hw5 hw6 hr1 hr3 hr4
  refine ⟨hw1, hw3, ?_, ?_, ?_, ?_, ?_⟩
  · rw [hw6, chunkEntries_join]
  · rw [hw6, chunkEntries_map_fst]
    simp [Nat.zero_add]
  · rw [hw6]
    exact hr1
  · rw [hw6]
    exact hr3
  · rw [hw6]
    exact hr4

/-- Claim C3 witness: C3_truncation applied at a concrete seven-byte secret
with ChunkSize 2 and MaxChunks 2: only the first four bytes survive the round
trip and neither side reports an error. -/
theorem C3_truncation_witness :
    (runWrite BuildOS.windows 2 2 okBeh
        (initWrite none "cred3w" [1, 2, 3, 4, 5, 6, 7])).1.err = KError.NoError ∧
    (runReadMap BuildOS.windows 2
        (runWrite BuildOS.windows 2 2 okBeh
          (initWrite none "cred3w" [1, 2, 3, 4, 5, 6, 7])).2.2
        (initRead none "cred3w" false)).chunkBuffer
      = List.take (2 * 2) [1, 2, 3, 4, 5, 6, 7] :=
  ⟨(C3_truncation 2 2 "cred3w" none [1, 2, 3, 4, 5, 6, 7]
      (by decide) (by decide) (by decide)).1,
   (C3_truncation 2 2 "cred3w" none [1, 2, 3, 4, 5, 6, 7]
      (by decide) (by decide) (by decide)).2.2.2.2.2.2⟩

theorem transient_ne_noerror (e : KError)
    (htr : e = KError.NoBackendAvailable ∨ e = KError.OtherError) :
    e ≠ KError.NoError := by
  rcases htr with h | h <;> subst h <;> decide

theorem transient_ne_notfound (e : KError)
    (htr : e = KError.NoBackendAvailable ∨ e = KError.OtherError) :
    e ≠ KError.EntryNotFound := by
  rcases htr with h | h <;> subst h <;> decide

theorem slotReadJobDone_retry (mc : Nat) (r : ReadDone) (st : ReadState)
    (hfb : st.insecureFallback = false) (hrp : st.retryOnKeyChainError = true)
    (htr : r.error = KError.NoBackendAvailable ∨ r.error = KError.OtherError) :
    slotReadJobDone BuildOS.unixOther mc (some r) st
      = ⟨ReadAction.retryLater 10000, { st with retryOnKeyChainError := false }⟩ := by
  have hne : ¬(r.error = KError.NoError ∧ 0 < r.data.length) := by
    intro hc
    exact transient_ne_noerror r.error htr hc.1
  rw [slotReadJobDone, if_neg hne,
    if_pos (show BuildOS.unixOther.unixNotMac = true ∧ st.insecureFallback = false ∧
      st.retryOnKeyChainError = true ∧
      (r.error = KError.NoBackendAvailable ∨ r.error = KError.OtherError)
      from ⟨rfl, hfb, hrp, htr⟩)]

theorem slotReadJobDone_fail_no_retry (mc : Nat) (r : ReadDone) (st : ReadState)
    (hfb : st.insecureFallback = false) (hrp : st.retryOnKeyChainError = false)
    (htr : r.error = KError.NoBackendAvailable ∨ r.error = KError.OtherError) :
    slotReadJobDone BuildOS.unixOther mc (some r) st
      = ⟨ReadAction.done,
         { st with
           retryOnKeyChainError := false, err := r.error,
           errorString := r.errorString, isJobRunning := false }⟩ := by
  have hne : ¬(r.error = KError.NoError ∧ 0 < r.data.length) :=
    fun hc => transient_ne_noerror r.error htr hc.1
  have hnr : ¬(BuildOS.unixOther.unixNotMac = true ∧ st.insecureFallback = false ∧
      st.retryOnKeyChainError = true ∧
      (r.error = KError.NoBackendAvailable ∨ r.error = KError.OtherError)) := by
    intro hc
    rw [hrp] at hc
    cases hc.2.2.1
  have hENF := transient_ne_notfound r.error htr
  rw [slotReadJobDone, if_neg hne, if_neg hnr,
    if_pos (show BuildOS.unixOther.unixNotMac = true ∧ st.insecureFallback = false
      from ⟨rfl, hfb⟩)]
  dsimp only
  rw [if_pos (Or.inl hENF)]

theorem slotReadJobDone_success_nonwin (os : BuildOS) (hos : os.win = false)
    (mc : Nat) (r : ReadDone) (st : ReadState)
    (he : r.error = KError.NoError) (hd : 0 < r.data.length) :
    slotReadJobDone os mc (some r) st
      = ⟨ReadAction.done,
         { st with
           chunkBuffer := st.chunkBuffer ++ r.data, chunkCount := st.chunkCount + 1,
           isJobRunning := false }⟩ := by
  rw [slotReadJobDone, if_pos (And.intro he hd)]
  simp only [hos]
  rw [if_neg (show ¬(false = true) from by decide)]

/-- Claim C4: on the platform where the one-shot retry block is compiled in,
a read completion with the backend-unavailable or other transient error class,
while the retry permission is available and insecure fallback is not engaged,
consumes the permission and schedules exactly one retry after the fixed
10000 millisecond delay, re-entering through ReadJob::start which issues the
same chunk-0 storage key again; a retried run whose second attempt succeeds
ends with the same error state and reassembled bytes as an immediately
successful run; and a second consecutive transient failure is recorded and
surfaces as an error completion. -/
theorem C4_retry_once :
    (∀ (mc : Nat) (r : ReadDone) (st : ReadState),
      st.insecureFallback = false → st.retryOnKeyChainError = true →
      (r.error = KError.NoBackendAvailable ∨ r.error = KError.OtherError) →
      slotReadJobDone BuildOS.unixOther mc (some r) st
        = ⟨ReadAction.retryLater 10000, { st with retryOnKeyChainError := false }⟩ ∧
      (readStart { st with retryOnKeyChainError := false }).action
        = ReadAction.issue (readStartKck st)) ∧
    (∀ (mc : Nat) (key : String) (acct : Option Account) (e : KError) (msg : String)
       (S : ByteBuf) (beh1 beh2 : Nat → ReadDone),
      0 < mc → (e = KError.NoBackendAvailable ∨ e = KError.OtherError) → S ≠ [] →
      (∀ i, beh1 i = if i = 0 then { error := e, errorString := msg, data := [] }
        else { error := KError.NoError, errorString := "", data := S }) →
      (∀ i, beh2 i = { error := KError.NoError, errorString := "", data := S }) →
      (runReadBeh BuildOS.unixOther mc beh1 (initRead acct key false)).err
          = (runReadBeh BuildOS.unixOther mc beh2 (initRead acct key false)).err ∧
      (runReadBeh BuildOS.unixOther mc beh1 (initRead acct key false)).chunkBuffer
          = (runReadBeh BuildOS.unixOther mc beh2 (initRead acct key false)).chunkBuffer ∧
      (runReadBeh BuildOS.unixOther mc beh1 (initRead acct key false)).err
          = KError.NoError ∧
      (runReadBeh BuildOS.unixOther mc beh1 (initRead acct key false)).chunkBuffer = S ∧
      (runReadBeh BuildOS.unixOther mc beh1
          (initRead acct key false)).retryOnKeyChainError = false) ∧
    (∀ (mc : Nat) (key : String) (acct : Option Account) (e : KError) (msg : String)
       (beh : Nat → ReadDone),
      0 < mc → (e = KError.NoBackendAvailable ∨ e = KError.OtherError) →
      (∀ i, beh i = { error := e, errorString := msg, data := [] }) →
      (runReadBeh BuildOS.unixOther mc beh (initRead acct key false)).err = e ∧
      (runReadBeh BuildOS.unixOther mc beh (initRead acct key false)).errorString
          = msg ∧
      (runReadBeh BuildOS.unixOther mc beh (initRead acct key false)).isJobRunning
          = false ∧
      e ≠ KError.NoError ∧
      (readStartAwaitResult
        (runReadBeh BuildOS.unixOther mc beh (initRead acct key false))).1 = false) := by
  refine ⟨?_, ?_, ?_⟩
  · intro mc r st hfb hrp htr
    exact ⟨slotReadJobDone_retry mc r st hfb hrp htr, rfl⟩
  · intro mc key acct e msg S beh1 beh2 hmc htr hS hbeh1 hbeh2
    have hSlen : 0 < S.length := List.length_pos.mpr hS
    have hstart : readStart (initRead acct key false)
        = ⟨ReadAction.issue (readStartKck (initRead acct key false)),
           { key := key, account := acct, keychainMigration := false,
             insecureFallback := false, retryOnKeyChainError := true,
             chunkBuffer := [], chunkCount := 0,
             err := KError.NoError, errorString := "", isJobRunning := true }⟩ := rfl
    have hrun1 : runReadBeh BuildOS.unixOther mc beh1 (initRead acct key false)
        = { key := key, account := acct, keychainMigration := false,
            insecureFallback := false, retryOnKeyChainError := false,
            chunkBuffer := [] ++ S, chunkCount := 1,
            err := KError.NoError, errorString := "", isJobRunning := false } := by
      show runReadFromBeh BuildOS.unixOther mc beh1 (mc + 4) 0
        (readStart (initRead acct key false)) = _
      rw [hstart, show mc + 4 = (mc + 3) + 1 from rfl, runReadFromBeh_step_issue]
      rw [hbeh1 0, if_pos rfl]
      rw [slotReadJobDone_retry mc _ _ rfl rfl htr]
      rw [show mc + 3 = (mc + 2) + 1 from rfl, runReadFromBeh_step_retry]
      have hstart2 : readStart
          { key := key, account := acct, keychainMigration := false,
            insecureFallback := false, retryOnKeyChainError := false,
            chunkBuffer := [], chunkCount := 0,
            err := KError.NoError, errorString := "", isJobRunning := true }
          = ⟨ReadAction.issue (readStartKck (initRead acct key false)),
             { key := key, account := acct, keychainMigration := false,
               insecureFallback := false, retryOnKeyChainError := false,
               chunkBuffer := [], chunkCount := 0,
               err := KError.NoError, errorString := "", isJobRunning := true }⟩ := rfl
      rw [hstart2, show mc + 2 = (mc + 1) + 1 from rfl, runReadFromBeh_step_issue]
      rw [hbeh1 1, if_neg (by decide)]
      rw [slotReadJobDone_success_nonwin BuildOS.unixOther rfl mc _ _ rfl hSlen]
      rw [runReadFromBeh_step_done]
    have hrun2 : runReadBeh BuildOS.unixOther mc beh2 (initRead acct key false)
        = { key := key, account := acct, keychainMigration := false,
            insecureFallback := false, retryOnKeyChainError := true,
            chunkBuffer := [] ++ S, chunkCount := 1,
            err := KError.NoError, errorString := "", isJobRunning := false } := by
      show runReadFromBeh BuildOS.unixOther mc beh2 (mc + 4) 0
        (readStart (initRead acct key false)) = _
      rw [hstart, show mc + 4 = (mc + 3) + 1 from rfl, runReadFromBeh_step_issue]
      rw [hbeh2 0]
      rw [slotReadJobDone_success_nonwin BuildOS.unixOther rfl mc _ _ rfl hSlen]
      rw [show mc + 3 = (mc + 2) + 1 from rfl, runReadFromBeh_step_done]
    rw [hrun1, hrun2]
    exact ⟨rfl, rfl, rfl, List.nil_append S, rfl⟩
  · intro mc key acct e msg beh hmc htr hbeh
    have hstart : readStart (initRead acct key false)
        = ⟨ReadAction.issue (readStartKck (initRead acct key false)),
           { key := key, account := acct, keychainMigration := false,
             insecureFallback := false, retryOnKeyChainError := true,
             chunkBuffer := [], chunkCount := 0,
             err := KError.NoError, errorString := "", isJobRunning := true }⟩ := rfl
    have hrun : runReadBeh BuildOS.unixOther mc beh (initRead acct key false)
        = { key := key, account := acct, keychainMigration := false,
            insecureFallback := false, retryOnKeyChainError := false,
            chunkBuffer := [], chunkCount := 0,
            err := e, errorString := msg, isJobRunning := false } := by
      show runReadFromBeh BuildOS.unixOther mc beh (mc + 4) 0
        (readStart (initRead acct key false)) = _
      rw [hstart, show mc + 4 = (mc + 3) + 1 from rfl, runReadFromBeh_step_issue]
      rw [hbeh 0]
      rw [slotReadJobDone_retry mc _ _ rfl rfl htr]
      rw [show mc + 3 = (mc + 2) + 1 from rfl, runReadFromBeh_step_retry]
      have hstart2 : readStart
          { key := key, account := acct, keychainMigration := false,
            insecureFallback := false, retryOnKeyChainError := false,
            chunkBuffer := [], chunkCount := 0,
            err := KError.NoError, errorString := "", isJobRunning := true }
          = ⟨ReadAction.issue (readStartKck (initRead acct key false)),
             { key := key, account := acct, keychainMigration := false,
               insecureFallback := false, retryOnKeyChainError := false,
               chunkBuffer := [], chunkCount := 0,
               err := KError.NoError, errorString := "", isJobRunning := true }⟩ := rfl
      rw [hstart2, show mc + 2 = (mc + 1) + 1 from rfl, runReadFromBeh_step_issue]
      rw [hbeh 1]
      rw [slotReadJobDone_fail_no_retry mc _ _ rfl rfl htr]
      rw [runReadFromBeh_step_done]
    have hne := transient_ne_noerror e htr
    rw [hrun]
    refine ⟨rfl, rfl, rfl, hne, ?_⟩
    rw [readStartAwaitResult, if_neg (by intro hc; exact hne hc)]

/-- Claim C4 witness: the three parts of C4_retry_once applied at concrete
inputs (a NoBackendAvailable failure on chunk 0, a two-byte secret, MaxChunks
ten). -/
theorem C4_retry_once_witness :
    (slotReadJobDone BuildOS.unixOther 10
        (some { error := KError.NoBackendAvailable, errorString := "down", data := [] })
        { key := "cred4", account := none, keychainMigration := false,
          insecureFallback := false, retryOnKeyChainError := true,
          chunkBuffer := [], chunkCount := 0, err := KError.NoError,
          errorString := "", isJobRunning := true }).action
      = ReadAction.retryLater 10000 ∧
    ((runReadBeh BuildOS.unixOther 10
        (fun i => if i = 0
          then { error := KError.NoBackendAvailable, errorString := "down", data := [] }
          else { error := KError.NoError, errorString := "", data := [7, 8] })
        (initRead none "cred4" false)).chunkBuffer = [7, 8]) ∧
    ((runReadBeh BuildOS.unixOther 10
        (fun _ => { error := KError.NoBackendAvailable, errorString := "down", data := [] })
        (initRead none "cred4" false)).err = KError.NoBackendAvailable) := by
  refine ⟨?_, ?_, ?_⟩
  · rw [(C4_retry_once.1 10
      { error := KError.NoBackendAvailable, errorString := "down", data := [] }
      { key := "cred4", account := none, keychainMigration := false,
        insecureFallback := false, retryOnKeyChainError := true,
        chunkBuffer := [], chunkCount := 0, err := KError.NoError,
        errorString := "", isJobRunning := true } rfl rfl (Or.inl rfl)).1]
  · exact (C4_retry_once.2.1 10 "cred4" none KError.NoBackendAvailable "down" [7, 8]
      (fun i => if i = 0
        then { error := KError.NoBackendAvailable, errorString := "down", data := [] }
        else { error := KError.NoError, errorString := "", data := [7, 8] })
      (fun _ => { error := KError.NoError, errorString := "", data := [7, 8] })
      (by decide) (Or.inl rfl) (by decide) (fun i => rfl) (fun i => rfl)).2.2.2.1
  · exact (C4_retry_once.2.2 10 "cred4" none KError.NoBackendAvailable "down"
      (fun _ => { error := KError.NoBackendAvailable, errorString := "down", data := [] })
      (by decide) (Or.inl rfl) (fun i => rfl)).1

end KeychainChunkSpec
